import Mathlib

/-!
# dbgenerater: schema model, column parsing and the SQL / model emitters

A shallow embedding of `main.go`.

* A decoded JSON document (`interface{}` as `encoding/json` produces it) is a `JVal`;
  a Go `map[string]interface{}` is the list of its entries in the order the `range`
  loop visits them.
* `log.Fatalf` ends the process, so every failing path is an `Except.error`.
* Text is built with `++` exactly where the source uses `+=` and `fmt.Sprintf`;
  `%s` of a string is the string, `%d` is `fmtD`.  The builders take the printer of
  `%v` as the parameter `fmtV`; `goFmtV` is that verb of package `fmt` on strings,
  booleans and whole numbers.
* The loader takes `sort.Slice` as the parameter `sortSlice`.  `SortSliceContract` is
  what the library documents of it, and `pdqSlice` is its algorithm since Go 1.19.
-/

namespace Dbgen

/-! ## Decoded JSON values -/

/-- A finite `float64`, as the decoder yields for a JSON number: the sign bit `neg`
and the magnitude `mag`, read in absolute value.  The sign bit tells `-0` from `0`. -/
structure float64 where
  neg : Bool
  mag : ℚ

instance (n : Nat) : OfNat float64 n := ⟨{ neg := false, mag := n }⟩

/-- A value held by an `interface{}` after `json.Unmarshal`: `nil`, `bool`, `float64`,
`string`, `[]interface{}` or `map[string]interface{}`. -/
inductive JVal where
  | null : JVal
  | bool (b : Bool) : JVal
  | num (x : float64) : JVal
  | str (s : String) : JVal
  | arr (xs : List JVal) : JVal
  | obj (kvs : List (String × JVal)) : JVal

/-- The test `v != nil` on an `interface{}`. -/
def JVal.notNil : JVal → Bool
  | .null => false
  | _ => true

/-- The conversion `int(x)` of a `float64` to the 64-bit `int`: the fraction is
discarded.  For a value that does not fit, the language leaves the result to the
implementation; the amd64 compiler gives the least `int`, as here. -/
def goInt (x : float64) : Int :=
  let t : Int := Int.ofNat (x.mag.num.natAbs / x.mag.den)
  let v : Int := if x.neg = true then -t else t
  if -9223372036854775808 ≤ v ∧ v < 9223372036854775808 then v else -9223372036854775808

/-- The verb `%d` applied to an `int`. -/
def fmtD (n : Int) : String :=
  match n with
  | Int.ofNat m => Nat.repr m
  | Int.negSucc m => "-" ++ Nat.repr (m + 1)

/-- Go's `len(s)` of a string: its length in bytes. -/
def len (s : String) : Nat := s.utf8ByteSize

/-! ## Constants -/

def COMMENT : String := "comment"
def PK : String := "pk"
def NULL : String := "null"
def TYPE : String := "type"
def DEFAULT : String := "default"
def MODEL_NAME : String := "model_name"
def INDEX : String := "index"
def SN : String := "sn"
def SIZE : String := "size"

/-- The map literal `DATA2MODEL_TYPE_MAP`, as its list of entries. -/
def DATA2MODEL_TYPE_MAP : List (String × String) :=
  [ ("tinyint unsigned", "uint8"),
    ("tinyint", "int8"),
    ("smallint unsigned", "uint16"),
    ("smallint", "int16"),
    ("int unsigned", "uint32"),
    ("int", "int32"),
    ("bigint unsigned", "uint64"),
    ("bigint", "int64"),
    ("char", "string"),
    ("varchar", "string") ]

/-- The two-valued index expression `v, ok := DATA2MODEL_TYPE_MAP[s]`. -/
def typeMapLookup (s : String) : Option String := DATA2MODEL_TYPE_MAP.lookup s

/-- The one-valued index expression `DATA2MODEL_TYPE_MAP[s]`: the zero value `""`
for a missing key. -/
def typeMapGet (s : String) : String := (typeMapLookup s).getD ""

/-! ## Data model -/

/-- The ways a run ends early. -/
inductive Failure where
  /-- A `log.Fatalf` inside `column.parse` or `table.parseIndex` (the statement after
  it is `return ERR_PARSE_FAILED`). -/
  | ERR_PARSE_FAILED : Failure
  /-- A `log.Fatalf` in `main`. -/
  | fatal : Failure
  /-- The unchecked type assertion `v1.([]interface{})` in `main`. -/
  | typeAssertion : Failure
  deriving DecidableEq

structure column where
  name : String
  comment : String
  sType : String
  iSize : Int
  iDefault : JVal
  isPk : Bool
  isNull : Bool
  modelName : String
  sn : Int

def NewColumn : column :=
  { name := "", comment := "", sType := "", iSize := 0, iDefault := JVal.null,
    isPk := false, isNull := false, modelName := "", sn := 0 }

structure index where
  columns : List String

def NewIndex : index := { columns := [] }

structure table where
  name : String
  comment : String
  columns : List column
  indexs : List index
  modelName : String

def NewTable (name : String) : table :=
  { name := name, comment := "", columns := [], indexs := [], modelName := "" }

/-! ## Parsing -/

/-- One iteration of the `range` loop of `column.parse`: the `switch k`. -/
def column.parseEntry (c : column) (k : String) (v : JVal) : Except Failure column :=
  if k = TYPE then
    match v with
    | JVal.str sType =>
      match typeMapLookup sType with
      | some _ => .ok { c with sType := sType }
      | none => .error Failure.ERR_PARSE_FAILED
    | _ => .error Failure.ERR_PARSE_FAILED
  else if k = PK then
    match v with
    | JVal.bool isPk => .ok { c with isPk := isPk }
    | _ => .error Failure.ERR_PARSE_FAILED
  else if k = NULL then
    match v with
    | JVal.bool isNull => .ok { c with isNull := isNull }
    | _ => .error Failure.ERR_PARSE_FAILED
  else if k = DEFAULT then
    .ok { c with iDefault := v }
  else if k = MODEL_NAME then
    match v with
    | JVal.str modelName => .ok { c with modelName := modelName }
    | _ => .error Failure.ERR_PARSE_FAILED
  else if k = COMMENT then
    match v with
    | JVal.str comment => .ok { c with comment := comment }
    | _ => .error Failure.ERR_PARSE_FAILED
  else if k = SN then
    match v with
    | JVal.num sn => .ok { c with sn := goInt sn }
    | _ => .error Failure.ERR_PARSE_FAILED
  else if k = SIZE then
    match v with
    | JVal.num size => .ok { c with iSize := goInt size }
    | _ => .error Failure.ERR_PARSE_FAILED
  else
    .ok c

/-- The method `column.parse`: the receiver `c` is updated entry by entry, in the
order `columnMap` is visited, until an entry fails. -/
def column.parse (c : column) (columnMap : List (String × JVal)) : Except Failure column :=
  match columnMap with
  | [] => .ok c
  | (k, v) :: rest =>
    match c.parseEntry k v with
    | .ok c1 => column.parse c1 rest
    | .error e => .error e

/-- The inner loop of `table.parseIndex` over one index group. -/
def parseIndexGroup (idx : index) (indexStrs : List JVal) : Except Failure index :=
  match indexStrs with
  | [] => .ok idx
  | JVal.str s :: rest => parseIndexGroup { columns := idx.columns ++ [s] } rest
  | _ :: _ => .error Failure.ERR_PARSE_FAILED

/-- The method `table.parseIndex`. -/
def table.parseIndex (t : table) (indexSlice : List JVal) : Except Failure table :=
  match indexSlice with
  | [] => .ok t
  | JVal.arr indexStrs :: rest =>
    match parseIndexGroup NewIndex indexStrs with
    | .ok idx => table.parseIndex { t with indexs := t.indexs ++ [idx] } rest
    | .error e => .error e
  | _ :: _ => .error Failure.ERR_PARSE_FAILED

/-! ## The model emitter -/

/-- The body of the `range t.columns` loop of `outputModelCode`, on the loop state
`(modelCode, isExistPk)`. -/
def outputModelCodeBody (st : String × Bool) (c : column) : String × Bool :=
  let modelCode := st.1
  let isExistPk := st.2
  let modelCode := modelCode ++
    ("\t" ++ c.modelName ++ " " ++ typeMapGet c.sType ++ " `orm:\"column(" ++ c.name ++ ")")
  let modelCode := if c.isNull then modelCode ++ ";null" else modelCode
  let st1 : String × Bool :=
    if c.isPk && !isExistPk then (modelCode ++ ";pk", true) else (modelCode, isExistPk)
  let modelCode := st1.1
  let isExistPk := st1.2
  let modelCode :=
    if c.iSize > 0 then modelCode ++ (";size(" ++ fmtD c.iSize ++ ")") else modelCode
  let modelCode := modelCode ++ "\"`\n"
  (modelCode, isExistPk)

/-- The text `outputModelCode` hands to `ioutil.WriteFile` for the file
`MODEL_DIR + t.name + ".go"`. -/
def table.outputModelCode (t : table) : String :=
  let modelCode := "package models\n\n" ++ "type " ++ t.modelName ++ " struct\x7b\n"
  let st := t.columns.foldl outputModelCodeBody (modelCode, false)
  st.1 ++ "\x7d\n"

/-! ## The SQL emitters -/

/-- The body of the `range t.columns` loop of `generateCreateSQL` at index `i`, on the
loop state `(sql, primaryKeyStr)`; `n` is `len(t.columns)`. -/
def generateCreateSQLBody (fmtV : JVal → String) (n i : Nat) (c : column)
    (st : String × String) : String × String :=
  let sql := st.1
  let primaryKeyStr := st.2
  let sql :=
    if c.sType = "varchar" ∨ c.sType = "char" then
      sql ++ ("`" ++ c.name ++ "` " ++ c.sType ++ "(" ++ fmtD c.iSize ++ ")")
    else
      sql ++ ("`" ++ c.name ++ "` " ++ c.sType)
  let sql := if c.isNull then sql ++ " NULL" else sql ++ " NOT NULL"
  let primaryKeyStr :=
    if c.isPk then
      if len primaryKeyStr = 0 then "`" ++ c.name ++ "`"
      else primaryKeyStr ++ (",`" ++ c.name ++ "`")
    else primaryKeyStr
  let sql :=
    if c.iDefault.notNil then
      if c.sType = "varchar" ∨ c.sType = "char" then sql ++ " DEFAULT ''"
      else sql ++ (" DEFAULT " ++ fmtV c.iDefault)
    else sql
  let sql :=
    if (i : Int) = (n : Int) - 1 ∧ len primaryKeyStr = 0 then
      sql ++ (" COMMENT '" ++ c.comment ++ "'\n")
    else
      sql ++ (" COMMENT '" ++ c.comment ++ "',\n")
  (sql, primaryKeyStr)

/-- The loop `for i, c := range t.columns` of `generateCreateSQL`, from index `i`. -/
def generateCreateSQLLoop (fmtV : JVal → String) (n : Nat) :
    Nat → List column → String × String → String × String
  | _, [], st => st
  | i, c :: cs, st => generateCreateSQLLoop fmtV n (i + 1) cs (generateCreateSQLBody fmtV n i c st)

/-- The loop `for i, c := range index.columns` of `generateCreateSQL`, from index `i`,
on the state `(indexName, indexContent)`. -/
def indexLoop : Nat → List String → String × String → String × String
  | _, [], st => st
  | i, c :: cs, st =>
    let indexName := st.1 ++ ("_" ++ c)
    let indexContent :=
      if i = 0 then st.2 ++ ("`" ++ c ++ "`") else st.2 ++ (", `" ++ c ++ "`")
    indexLoop (i + 1) cs (indexName, indexContent)

/-- The body of the loop `for _, index := range t.indexs` of `generateCreateSQL`. -/
def generateCreateSQLIndexBody (t : table) (sql : String) (idx : index) : String :=
  let st := indexLoop 0 idx.columns (t.name, "")
  let indexName := st.1
  let indexContent := st.2
  sql ++ ("CREATE INDEX `" ++ indexName ++ "` ON `" ++ t.name ++ "` (" ++ indexContent ++ ");\n")

/-- The statement text returned by `generateCreateSQL` (its `err` is never assigned). -/
def table.generateCreateSQL (fmtV : JVal → String) (t : table) : String :=
  let sql := ""
  let sql := sql ++ "-- --------------------------------------------------\n"
  let sql := sql ++ ("--  Table Structure for `models." ++ t.modelName ++ "`\n")
  let sql := sql ++ "-- --------------------------------------------------\n"
  let sql := sql ++ ("CREATE TABLE IF NOT EXISTS `" ++ t.name ++ "` (\n")
  let st := generateCreateSQLLoop fmtV t.columns.length 0 t.columns (sql, "")
  let sql := st.1
  let primaryKeyStr := st.2
  let sql :=
    if len primaryKeyStr > 0 then sql ++ ("PRIMARY KEY(" ++ primaryKeyStr ++ ")\n") else sql
  let sql := sql ++ (") ENGINE=InnoDB COMMENT='" ++ t.comment ++ "' DEFAULT CHARSET=utf8;\n")
  let sql :=
    if t.indexs.length > 0 then t.indexs.foldl (generateCreateSQLIndexBody t) sql else sql
  sql ++ "\n"

/-- The body of the `range t.columns` loop of `generateAlterSQL`. -/
def generateAlterSQLBody (fmtV : JVal → String) (t : table) (sql : String) (c : column) :
    String :=
  let sql := sql ++ ("ALTER TABLE `" ++ t.name ++ "` CHANGE `" ++ c.name ++ "` ")
  let sql :=
    if c.sType = "varchar" ∨ c.sType = "char" then
      sql ++ ("`" ++ c.name ++ "` " ++ c.sType ++ "(" ++ fmtD c.iSize ++ ")")
    else
      sql ++ ("`" ++ c.name ++ "` " ++ c.sType)
  let sql := if c.isNull then sql ++ " NULL" else sql ++ " NOT NULL"
  let sql :=
    if c.iDefault.notNil then
      if c.sType = "varchar" ∨ c.sType = "char" then sql ++ " DEFAULT ''"
      else sql ++ (" DEFAULT " ++ fmtV c.iDefault)
    else sql
  sql ++ (" COMMENT '" ++ c.comment ++ "';\n")

/-- The statement text returned by `generateAlterSQL`. -/
def table.generateAlterSQL (fmtV : JVal → String) (t : table) : String :=
  let sql := ""
  let sql := sql ++ "----------------------------------------------------\n"
  let sql := sql ++ ("--  `" ++ t.name ++ "`\n")
  let sql := sql ++ "----------------------------------------------------\n"
  let sql := t.columns.foldl (generateAlterSQLBody fmtV t) sql
  sql ++ "\n"

/-- The body of the `range t.columns` loop of `generateDropSQL`. -/
def generateDropSQLBody (t : table) (sql : String) (c : column) : String :=
  sql ++ ("ALTER TABLE `" ++ t.name ++ "` DROP `" ++ c.name ++ "`;\n")

/-- The statement text returned by `generateDropSQL`. -/
def table.generateDropSQL (t : table) : String :=
  let sql := ""
  let sql := sql ++ "----------------------------------------------------\n"
  let sql := sql ++ ("--  `" ++ t.name ++ "`\n")
  let sql := sql ++ "----------------------------------------------------\n"
  let sql := t.columns.foldl (generateDropSQLBody t) sql
  sql ++ "\n"

/-- The body of the `range t.columns` loop of `generateAddSQL`, on the loop state
`(sql, preCName)`. -/
def generateAddSQLBody (fmtV : JVal → String) (t : table) (st : String × String)
    (c : column) : String × String :=
  let sql := st.1
  let preCName := st.2
  let sql := sql ++ ("ALTER TABLE `" ++ t.name ++ "` ADD ")
  let sql :=
    if c.sType = "varchar" ∨ c.sType = "char" then
      sql ++ ("`" ++ c.name ++ "` " ++ c.sType ++ "(" ++ fmtD c.iSize ++ ")")
    else
      sql ++ ("`" ++ c.name ++ "` " ++ c.sType)
  let sql := if c.isNull then sql ++ " NULL" else sql ++ " NOT NULL"
  let sql :=
    if c.iDefault.notNil then
      if c.sType = "varchar" ∨ c.sType = "char" then sql ++ " DEFAULT ''"
      else sql ++ (" DEFAULT " ++ fmtV c.iDefault)
    else sql
  let sql :=
    if len preCName > 0 then
      sql ++ (" COMMENT '" ++ c.comment ++ "' AFTER `" ++ preCName ++ "`;\n")
    else
      sql ++ (" COMMENT '" ++ c.comment ++ "';\n")
  let preCName := c.name
  (sql, preCName)

/-- The statement text returned by `generateAddSQL`. -/
def table.generateAddSQL (fmtV : JVal → String) (t : table) : String :=
  let preCName := ""
  let sql := ""
  let sql := sql ++ "----------------------------------------------------\n"
  let sql := sql ++ ("--  `" ++ t.name ++ "`\n")
  let sql := sql ++ "----------------------------------------------------\n"
  let st := t.columns.foldl (generateAddSQLBody fmtV t) (sql, preCName)
  st.1 ++ "\n"

/-! ## Loading a table (`main`) -/

/-- The body of the loop `for k1, v1 := range maps` of `main`. -/
def loadEntry (t : table) (k1 : String) (v1 : JVal) : Except Failure table :=
  if k1 = MODEL_NAME then
    match v1 with
    | JVal.str s => .ok { t with modelName := s }
    | _ => .error Failure.fatal
  else if k1 = COMMENT then
    match v1 with
    | JVal.str s => .ok { t with comment := s }
    | _ => .error Failure.fatal
  else if k1 = INDEX then
    match v1 with
    | JVal.arr indexSlice => t.parseIndex indexSlice
    | _ => .error Failure.typeAssertion
  else
    match v1 with
    | JVal.obj m =>
      match NewColumn.parse m with
      | .ok c => .ok { t with columns := t.columns ++ [{ c with name := k1 }] }
      | .error e => .error e
    | _ => .error Failure.fatal

/-- The loop `for k1, v1 := range maps` of `main`, over the entries in visiting order. -/
def loadEntries (t : table) (maps : List (String × JVal)) : Except Failure table :=
  match maps with
  | [] => .ok t
  | (k1, v1) :: rest =>
    match loadEntry t k1 v1 with
    | .ok t1 => loadEntries t1 rest
    | .error e => .error e

/-- The comparison closure handed to `sort.Slice` in `main`. -/
def snLess (a b : column) : Bool := decide (a.sn < b.sn)

/-- One iteration of the loop `for k, v := range content` of `main`, up to the
`append` to `tableSlice`: the table built for the key `k`. -/
def loadTable (sortSlice : (column → column → Bool) → List column → List column)
    (k : String) (v : JVal) : Except Failure table :=
  match v with
  | JVal.obj maps =>
    match loadEntries (NewTable k) maps with
    | .ok t => .ok { t with columns := sortSlice snLess t.columns }
    | .error e => .error e
  | _ => .error Failure.fatal

/-- What the documentation of `sort.Interface` asks of a `less` function: a
transitive ordering, in which "not less" is transitive as well. -/
def LessOrdering (less : column → column → Bool) : Prop :=
  (∀ a, less a a = false) ∧
  (∀ a b c, less a b = true → less b c = true → less a c = true) ∧
  (∀ a b c, less a b = false → less b c = false → less a c = false)

/-- The documented contract of `sort.Slice`: the slice is rearranged so that no
element is `less` than an element before it.  Nothing is promised about elements
neither of which is `less` than the other ("the sort is not guaranteed to be
stable"). -/
def SortSliceContract (sortSlice : (column → column → Bool) → List column → List column) :
    Prop :=
  ∀ less, LessOrdering less → ∀ x,
    (sortSlice less x).Perm x ∧ (sortSlice less x).Pairwise (fun a b => less b a = false)

/-! ## The clauses of the specification -/

/-- Concatenation of a list of texts. -/
def sconcat : List String → String
  | [] => ""
  | s :: ss => s ++ sconcat ss

/-- The texts of a list joined by a separator. -/
def joinWith (sep : String) : List String → String
  | [] => ""
  | [s] => s
  | s :: t :: ss => s ++ sep ++ joinWith sep (t :: ss)

/-- "Character types render `type(size)`; all other types render bare." -/
def columnType (c : column) : String :=
  if c.sType = "char" ∨ c.sType = "varchar" then
    "`" ++ c.name ++ "` " ++ c.sType ++ "(" ++ fmtD c.iSize ++ ")"
  else
    "`" ++ c.name ++ "` " ++ c.sType

/-- "Nullability renders `NULL`/`NOT NULL`." -/
def nullClause (c : column) : String :=
  if c.isNull = true then " NULL" else " NOT NULL"

/-- "A present default renders `DEFAULT ''` for character types regardless of the
stored default value, or `DEFAULT <value>` for all other types"; no default, no
clause. -/
def defaultClause (fmtV : JVal → String) (c : column) : String :=
  match c.iDefault with
  | JVal.null => ""
  | v => if c.sType = "char" ∨ c.sType = "varchar" then " DEFAULT ''" else " DEFAULT " ++ fmtV v

/-- The comment of a column clause. -/
def commentClause (c : column) : String := " COMMENT '" ++ c.comment ++ "'"

/-- The column definition shared by the Create, Alter and Add statements. -/
def columnDef (fmtV : JVal → String) (c : column) : String :=
  columnType c ++ nullClause c ++ defaultClause fmtV c ++ commentClause c

/-- The names of the primary-key columns, each between backticks, in column order. -/
def pkNames (cols : List column) : List String :=
  (cols.filter (fun c => c.isPk)).map (fun c => "`" ++ c.name ++ "`")

/-- The primary-key clause of the Create statement. -/
def primaryKeyClause (cols : List column) : String :=
  if cols.any (fun c => c.isPk) = true then "PRIMARY KEY(" ++ joinWith "," (pkNames cols) ++ ")\n"
  else ""

/-- The four lines that open the Create statement. -/
def createHead (t : table) : String :=
  "-- --------------------------------------------------\n" ++
  "--  Table Structure for `models." ++ t.modelName ++ "`\n" ++
  "-- --------------------------------------------------\n" ++
  "CREATE TABLE IF NOT EXISTS `" ++ t.name ++ "` (\n"

/-- The `CREATE INDEX` statement of one index. -/
def createIndexStmt (t : table) (idx : index) : String :=
  "CREATE INDEX `" ++ t.name ++ sconcat (idx.columns.map (fun c => "_" ++ c)) ++ "` ON `" ++
    t.name ++ "` (" ++ joinWith ", " (idx.columns.map (fun c => "`" ++ c ++ "`")) ++ ");\n"

/-- What follows the column list and the primary-key clause of the Create statement. -/
def createTail (t : table) : String :=
  ") ENGINE=InnoDB COMMENT='" ++ t.comment ++ "' DEFAULT CHARSET=utf8;\n" ++
    sconcat (t.indexs.map (createIndexStmt t)) ++ "\n"

/-- The three lines that open the Alter, Drop and Add scripts of a table. -/
def scriptHead (t : table) : String :=
  "----------------------------------------------------\n" ++
  "--  `" ++ t.name ++ "`\n" ++
  "----------------------------------------------------\n"

/-- The value of `primaryKeyStr` after the loop body has seen the column `c`. -/
def pkStep (pk : String) (c : column) : String :=
  if c.isPk = true then
    if len pk = 0 then "`" ++ c.name ++ "`" else pk ++ (",`" ++ c.name ++ "`")
  else pk

/-- The value of `primaryKeyStr` after the loop has seen the columns `cs`. -/
def pkFold (pk : String) (cs : List column) : String := cs.foldl pkStep pk

/-- The column clauses of the Create statement, for the columns `cs` that start at
index `i` of the `n` columns, when `primaryKeyStr` holds `pk` before them. -/
def createClausesFrom (fmtV : JVal → String) (n : Nat) (pk : String) :
    Nat → List column → List String
  | _, [] => []
  | i, c :: cs =>
    (columnDef fmtV c ++
      (if i + 1 = n ∧ pk = "" ∧ (c :: cs).any (fun c => c.isPk) = false then "\n" else ",\n"))
      :: createClausesFrom fmtV n (pkStep pk c) (i + 1) cs

/-- The column clauses of the Create statement: each column definition is followed by
a comma and a newline, except that the last one is followed by a newline alone when
the table has no primary-key column. -/
def createClauses (fmtV : JVal → String) (cols : List column) : List String :=
  cols.enum.map (fun p =>
    columnDef fmtV p.2 ++
      (if p.1 + 1 = cols.length ∧ cols.any (fun c => c.isPk) = false then "\n" else ",\n"))

/-- One `ALTER TABLE ... CHANGE` statement of the Alter script. -/
def alterStmt (fmtV : JVal → String) (t : table) (c : column) : String :=
  "ALTER TABLE `" ++ t.name ++ "` CHANGE `" ++ c.name ++ "` " ++ columnDef fmtV c ++ ";\n"

/-- One `ALTER TABLE ... DROP` statement of the Drop script. -/
def dropStmt (t : table) (c : column) : String :=
  "ALTER TABLE `" ++ t.name ++ "` DROP `" ++ c.name ++ "`;\n"

/-- One `ALTER TABLE ... ADD` statement of the Add script, for the column `c` when
`preCName` holds `pre`: the positional clause is left out when `pre` is empty. -/
def addStmt (fmtV : JVal → String) (t : table) (c : column) (pre : String) : String :=
  "ALTER TABLE `" ++ t.name ++ "` ADD " ++ columnDef fmtV c ++
    (if pre = "" then ";\n" else " AFTER `" ++ pre ++ "`;\n")

/-- The statements of the Add script: `preCName` is empty before the first column and
holds the name of the column before, whatever that name is, from then on. -/
def addStmts (fmtV : JVal → String) (t : table) : List String :=
  List.zipWith (addStmt fmtV t) t.columns ("" :: t.columns.map (fun c => c.name))

/-- The two lines that open the model file. -/
def modelHead (t : table) : String :=
  "package models\n\n" ++ "type " ++ t.modelName ++ " struct\x7b\n"

/-- One field line of the model: the column name, then `;null` for a nullable column,
then `;pk` when `pk` is set, then the size when it is positive. -/
def modelField (c : column) (pk : Bool) : String :=
  "\t" ++ c.modelName ++ " " ++ typeMapGet c.sType ++ " `orm:\"column(" ++ c.name ++ ")" ++
    (if c.isNull = true then ";null" else "") ++
    (if pk = true then ";pk" else "") ++
    (if c.iSize > 0 then ";size(" ++ fmtD c.iSize ++ ")" else "") ++ "\"`\n"

/-- For each column, whether the field line written for it gets `;pk`, when
`isExistPk` holds `ex` before the first of them. -/
def pkMarksFrom (ex : Bool) : List column → List Bool
  | [] => []
  | c :: cs => (c.isPk && !ex) :: pkMarksFrom (ex || c.isPk) cs

/-! ## What `column.parse` checks -/

/-- The value is a string that is a key of the type map. -/
def JVal.isKnownType : JVal → Bool
  | JVal.str s => (typeMapLookup s).isSome
  | _ => false

/-- The value is a boolean. -/
def JVal.isBool : JVal → Bool
  | JVal.bool _ => true
  | _ => false

/-- The value is a string. -/
def JVal.isString : JVal → Bool
  | JVal.str _ => true
  | _ => false

/-- The value is a number. -/
def JVal.isNumber : JVal → Bool
  | JVal.num _ => true
  | _ => false

/-- An attribute that `column.parse` rejects: a `type` that is not a string of the type
map, a `pk` or `null` that is not a boolean, a `model_name` or `comment` that is not a
string, an `sn` or `size` that is not a number. -/
def badEntry (k : String) (v : JVal) : Bool :=
  (decide (k = TYPE) && !v.isKnownType) ||
  (decide (k = PK ∨ k = NULL) && !v.isBool) ||
  (decide (k = MODEL_NAME ∨ k = COMMENT) && !v.isString) ||
  (decide (k = SN ∨ k = SIZE) && !v.isNumber)

/-- The field `f` of the column `c` comes from the attribute `key` of the mapping `m`,
read through `R`; without that attribute it is the field of the receiver `c0`. -/
def FieldFrom {α : Type} (key : String) (f : column → α) (R : JVal → α → Prop)
    (c0 : column) (m : List (String × JVal)) (c : column) : Prop :=
  (∀ v, (key, v) ∈ m → R v (f c)) ∧ ((∀ v, (key, v) ∉ m) → f c = f c0)

/-- Each recognised field of `c` is set from its attribute in `m`, the other fields
are those of the receiver `c0`. -/
def ParsedFrom (c0 : column) (m : List (String × JVal)) (c : column) : Prop :=
  c.name = c0.name ∧
  FieldFrom TYPE (fun c => c.sType) (fun v a => v = JVal.str a) c0 m c ∧
  FieldFrom PK (fun c => c.isPk) (fun v a => v = JVal.bool a) c0 m c ∧
  FieldFrom NULL (fun c => c.isNull) (fun v a => v = JVal.bool a) c0 m c ∧
  FieldFrom DEFAULT (fun c => c.iDefault) (fun v a => a = v) c0 m c ∧
  FieldFrom MODEL_NAME (fun c => c.modelName) (fun v a => v = JVal.str a) c0 m c ∧
  FieldFrom COMMENT (fun c => c.comment) (fun v a => v = JVal.str a) c0 m c ∧
  FieldFrom SN (fun c => c.sn) (fun v a => ∃ x, v = JVal.num x ∧ a = goInt x) c0 m c ∧
  FieldFrom SIZE (fun c => c.iSize) (fun v a => ∃ x, v = JVal.num x ∧ a = goInt x) c0 m c

/-! ## Sorting the columns -/

/-- The key of a table entry that `main` reads as a column: any key but `model_name`,
`comment` and `index`. -/
def isColumnKey (k : String) : Bool :=
  !(decide (k = MODEL_NAME) || decide (k = COMMENT) || decide (k = INDEX))

/-- The column `c` is what `main` appends for the table entry `p`: the attribute mapping
of `p` parsed into a new column, then named after the key of `p`. -/
def ParsedColumn (p : String × JVal) (c : column) : Prop :=
  ∃ m c1, p.2 = JVal.obj m ∧ NewColumn.parse m = .ok c1 ∧ c = { c1 with name := p.1 }

/-- A gap pass over the two halves of a list: `back[j]` is compared with `front[j]` and
exchanged with it when it is less. -/
def exchange (less : column → column → Bool) :
    List column → List column → List column × List column
  | a :: front, b :: back =>
    let p := exchange less front back
    if less b a = true then (b :: p.1, a :: p.2) else (a :: p.1, b :: p.2)
  | front, back => (front, back)

/-- The list after a gap pass between each element and the one six places on. -/
def gapPass (less : column → column → Bool) (x : List column) : List column :=
  let p := exchange less (x.take 6) (x.drop 6)
  p.1 ++ p.2

/-- A sort that meets `SortSliceContract`, kept as an instance of the contract: a gap
pass, then an insertion sort.  It is not the algorithm of `sort.Slice`, which is
`pdqSlice`. -/
def shellSortSlice (less : column → column → Bool) (x : List column) : List column :=
  List.insertionSort (fun a b => less b a = false) (gapPass less x)

/-! ## Example documents -/

/-- The table entry of the specification's example, `name` visited before `id`. -/
def usersDoc : List (String × JVal) :=
  [ ("model_name", JVal.str "User"),
    ("comment", JVal.str "user table"),
    ("name", JVal.obj [("type", JVal.str "varchar"), ("size", JVal.num 32),
      ("null", JVal.bool false), ("sn", JVal.num 2), ("model_name", JVal.str "Name"),
      ("comment", JVal.str "name")]),
    ("id", JVal.obj [("type", JVal.str "bigint"), ("pk", JVal.bool true),
      ("null", JVal.bool false), ("sn", JVal.num 1), ("model_name", JVal.str "Id"),
      ("comment", JVal.str "id")]) ]

/-- A table entry with seven columns, two of which, `p` and `q`, have the sequence
number 1; `p` is visited before `q`. -/
def tieDoc : List (String × JVal) :=
  [ ("x", JVal.obj [("type", JVal.str "int"), ("sn", JVal.num 2)]),
    ("p", JVal.obj [("type", JVal.str "int"), ("sn", JVal.num 1)]),
    ("c", JVal.obj [("type", JVal.str "int"), ("sn", JVal.num 3)]),
    ("d", JVal.obj [("type", JVal.str "int"), ("sn", JVal.num 4)]),
    ("e", JVal.obj [("type", JVal.str "int"), ("sn", JVal.num 5)]),
    ("f", JVal.obj [("type", JVal.str "int"), ("sn", JVal.num 6)]),
    ("q", JVal.obj [("type", JVal.str "int"), ("sn", JVal.num 1)]) ]

/-- An attribute mapping with every recognised attribute but `model_name`. -/
def nameColumnMap : List (String × JVal) :=
  [ ("type", JVal.str "varchar"), ("size", JVal.num 32), ("null", JVal.bool false),
    ("pk", JVal.bool false), ("sn", JVal.num 2), ("default", JVal.str "x"),
    ("comment", JVal.str "name") ]

/-- A table entry with one column whose `default` attribute is the JSON `null`. -/
def nullDefaultDoc : List (String × JVal) :=
  [ ("a", JVal.obj [("type", JVal.str "int"), ("default", JVal.null)]) ]

/-- A column `a` of type `int` whose default is the number 0, before it is named. -/
def zeroDefaultColumn : column :=
  { NewColumn with sType := "int", iDefault := JVal.num 0 }

/-- The attribute mapping `zeroDefaultColumn` is parsed from. -/
def zeroDefaultMap : List (String × JVal) :=
  [("type", JVal.str "int"), ("default", JVal.num 0)]

/-- A table whose only column is `zeroDefaultColumn`, named `a`. -/
def zeroDefaultTable : table :=
  { name := "t", comment := "", columns := [{ zeroDefaultColumn with name := "a" }],
    indexs := [], modelName := "T" }

/-! ## The error results of the statement builders -/

/-- The pair `(err, sql)` that `generateCreateSQL` returns.  `err` is a named result: it
is nil when the function is entered, no statement of the body assigns it, and the bare
`return` hands it back. -/
def table.generateCreateSQLResult (fmtV : JVal → String) (t : table) :
    Option Failure × String :=
  let err : Option Failure := none
  (err, t.generateCreateSQL fmtV)

/-- The pair `(err, sql)` that `generateAlterSQL` returns. -/
def table.generateAlterSQLResult (fmtV : JVal → String) (t : table) :
    Option Failure × String :=
  let err : Option Failure := none
  (err, t.generateAlterSQL fmtV)

/-- The pair `(err, sql)` that `generateDropSQL` returns. -/
def table.generateDropSQLResult (t : table) : Option Failure × String :=
  let err : Option Failure := none
  (err, t.generateDropSQL)

/-- The pair `(err, sql)` that `generateAddSQL` returns. -/
def table.generateAddSQLResult (fmtV : JVal → String) (t : table) :
    Option Failure × String :=
  let err : Option Failure := none
  (err, t.generateAddSQL fmtV)

/-- The method `generateSQL`: `(err, createSql, alterSql, dropSql)`, where the first
non-nil error of a builder is returned with the texts built so far. -/
def table.generateSQL (fmtV : JVal → String) (t : table) :
    Option Failure × String × String × String :=
  let r1 := t.generateCreateSQLResult fmtV
  match r1.1 with
  | some e => (some e, r1.2, "", "")
  | none =>
    let r2 := t.generateAlterSQLResult fmtV
    match r2.1 with
    | some e => (some e, r1.2, r2.2, "")
    | none =>
      let r3 := t.generateDropSQLResult
      match r3.1 with
      | some e => (some e, r1.2, r2.2, r3.2)
      | none => (none, r1.2, r2.2, r3.2)

/-- The loop `for _, t := range tableSlice` that ends `main`, on the four texts
`(createSql, alterSql, dropSql, addSql)`: `none` when `main` returns from inside the loop
because a builder gave an error, the four texts handed to `outputSql` otherwise. -/
def sqlLoop (fmtV : JVal → String) :
    List table → String × String × String × String → Option (String × String × String × String)
  | [], acc => some acc
  | t :: ts, acc =>
    let r1 := t.generateCreateSQLResult fmtV
    match r1.1 with
    | some _ => none
    | none =>
      let createSql := acc.1 ++ r1.2
      let r2 := t.generateAlterSQLResult fmtV
      match r2.1 with
      | some _ => none
      | none =>
        let alterSql := acc.2.1 ++ r2.2
        let r3 := t.generateDropSQLResult
        match r3.1 with
        | some _ => none
        | none =>
          let dropSql := acc.2.2.1 ++ r3.2
          let r4 := t.generateAddSQLResult fmtV
          match r4.1 with
          | some _ => none
          | none =>
            let addSql := acc.2.2.2 ++ r4.2
            sqlLoop fmtV ts (createSql, alterSql, dropSql, addSql)

/-! ## Columns that differ in their size only -/

/-- The columns `c1` and `c2` have the same fields, except that their sizes may differ
when the storage type is neither `char` nor `varchar`. -/
def SameButSize (c1 c2 : column) : Prop :=
  c1.name = c2.name ∧ c1.comment = c2.comment ∧ c1.sType = c2.sType ∧
  c1.iDefault = c2.iDefault ∧ c1.isPk = c2.isPk ∧ c1.isNull = c2.isNull ∧
  c1.modelName = c2.modelName ∧ c1.sn = c2.sn ∧
  ((c1.sType = "char" ∨ c1.sType = "varchar") → c1.iSize = c2.iSize)

/-- A table with an `int` column of size 0 and a `varchar` column of size 32. -/
def sizeTable1 : table :=
  { name := "t", comment := "", indexs := [], modelName := "T",
    columns := [{ NewColumn with name := "a", sType := "int", iSize := 0 },
                { NewColumn with name := "b", sType := "varchar", iSize := 32 }] }

/-- The table `sizeTable1` with the size 11 on its `int` column. -/
def sizeTable2 : table :=
  { name := "t", comment := "", indexs := [], modelName := "T",
    columns := [{ NewColumn with name := "a", sType := "int", iSize := 11 },
                { NewColumn with name := "b", sType := "varchar", iSize := 32 }] }

/-- The key is one of the eight attribute names that `column.parse` reads. -/
def isRecognisedKey (k : String) : Bool :=
  decide (k = TYPE) || decide (k = PK) || decide (k = NULL) || decide (k = DEFAULT) ||
  decide (k = MODEL_NAME) || decide (k = COMMENT) || decide (k = SN) || decide (k = SIZE)

/-- The mapping `nameColumnMap` visited from its last entry to its first. -/
def nameColumnMapShuffled : List (String × JVal) :=
  [ ("comment", JVal.str "name"), ("default", JVal.str "x"), ("sn", JVal.num 2),
    ("pk", JVal.bool false), ("null", JVal.bool false), ("size", JVal.num 32),
    ("type", JVal.str "varchar") ]

/-! ## The verb `%v` -/

/-- The digits of a number without its trailing zeros. -/
def stripZeros (ds : List Char) : List Char :=
  (ds.reverse.dropWhile (fun d => d == '0')).reverse

/-- The notation `%e` of `strconv` with the shortest digits, for a whole number: the
first digit, the other significant digits after a point when there are any, and the
exponent with its sign and at least two digits. -/
def fmtExp (n : Nat) : String :=
  let ds := (Nat.repr n).data
  let exp := ds.length - 1
  let mant : String :=
    match stripZeros ds with
    | [] => "0"
    | [d] => String.mk [d]
    | d :: rest => String.mk (d :: '.' :: rest)
  mant ++ "e+" ++ (if exp < 10 then "0" ++ Nat.repr exp else Nat.repr exp)

/-- The verb `%v` on a `float64` whose value is the whole number `n`, below 2^53, with
the sign bit `neg`: `%g` with the shortest digits, which is the plain decimal notation
below 10^6 (an exponent below 6) and the notation `%e` from there on. -/
def fmtWhole (neg : Bool) (n : Nat) : String :=
  (if neg = true then "-" else "") ++ (if n < 1000000 then Nat.repr n else fmtExp n)

/-- The verb `%v` of package `fmt` on a decoded value: a string as it is, a boolean as
`true` or `false`, nil as `<nil>`, a `float64` holding a whole number below 2^53 by
`fmtWhole`.  What `fmt` prints for the other values (a `float64` with a fraction or
from 2^53 on, an array, a map) is the parameter `fmtOther`. -/
def goFmtV (fmtOther : JVal → String) : JVal → String
  | JVal.null => "<nil>"
  | JVal.bool b => if b = true then "true" else "false"
  | JVal.str s => s
  | JVal.num x =>
    if x.mag.den = 1 ∧ x.mag.num.natAbs < 9007199254740992 then
      fmtWhole x.neg x.mag.num.natAbs
    else fmtOther (JVal.num x)
  | v => fmtOther v

/-- A table entry with one `int` column whose `default` attribute is 1000000. -/
def millionDoc : List (String × JVal) :=
  [ ("n", JVal.obj [("type", JVal.str "int"), ("default", JVal.num 1000000)]) ]

/-! ## `sort.Slice` since Go 1.19: `pdqsort_func`

The functions of `sort/zsortfunc.go` that `sort.Slice` runs, on the slice as a list;
every loop carries a count of the iterations it may still make.  `breakPatterns_func`
scatters three elements by a pseudo-random generator whose constants differ between
releases; it is the parameter `breakPatterns`. -/

/-- The call `data.Less(i, j)`. -/
def lessAt (less : column → column → Bool) (data : List column) (i j : Nat) : Bool :=
  match data[i]?, data[j]? with
  | some x, some y => less x y
  | _, _ => false

/-- The call `data.Swap(i, j)`. -/
def swapAt (data : List column) (i j : Nat) : List column :=
  match data[i]?, data[j]? with
  | some x, some y => (data.set i y).set j x
  | _, _ => data

/-- The inner loop of `insertionSort_func`:
`for j := i; j > a && data.Less(j, j-1); j-- { data.Swap(j, j-1) }`. -/
def insertionSortInner (less : column → column → Bool) (a : Nat) :
    Nat → List column → Nat → List column
  | 0, data, _ => data
  | fuel + 1, data, j =>
    if j > a ∧ lessAt less data j (j - 1) = true then
      insertionSortInner less a fuel (swapAt data j (j - 1)) (j - 1)
    else data

/-- The outer loop of `insertionSort_func`: `for i := a + 1; i < b; i++`. -/
def insertionSortOuter (less : column → column → Bool) (a b : Nat) :
    Nat → List column → Nat → List column
  | 0, data, _ => data
  | fuel + 1, data, i =>
    if i < b then
      insertionSortOuter less a b fuel (insertionSortInner less a (i + 1) data i) (i + 1)
    else data

/-- The function `insertionSort_func(data, a, b)`. -/
def insertionSort_func (less : column → column → Bool) (data : List column) (a b : Nat) :
    List column :=
  insertionSortOuter less a b (b - a) data (a + 1)

/-- The function `siftDown_func(data, lo, hi, first)`, from the root `lo`. -/
def siftDown_func (less : column → column → Bool) (hi first : Nat) :
    Nat → List column → Nat → List column
  | 0, data, _ => data
  | fuel + 1, data, root =>
    let child := 2 * root + 1
    if child ≥ hi then data
    else
      let child :=
        if child + 1 < hi ∧ lessAt less data (first + child) (first + child + 1) = true then
          child + 1
        else child
      if lessAt less data (first + root) (first + child) = false then data
      else siftDown_func less hi first fuel (swapAt data (first + root) (first + child)) child

/-- The function `heapSort_func(data, a, b)`. -/
def heapSort_func (less : column → column → Bool) (data : List column) (a b : Nat) :
    List column :=
  let first := a
  let lo := 0
  let hi := b - a
  let data := (List.range ((hi - 1) / 2 + 1)).reverse.foldl
    (fun d i => siftDown_func less hi first hi d i) data
  (List.range hi).reverse.foldl
    (fun d i => siftDown_func less i first hi (swapAt d first (first + i)) lo) data

/-- The type `sortedHint`. -/
inductive sortedHint where
  | unknownHint : sortedHint
  | increasingHint : sortedHint
  | decreasingHint : sortedHint
  deriving DecidableEq

/-- The function `order2_func(data, a, b, swaps)`: `(x, y, swaps)`. -/
def order2_func (less : column → column → Bool) (data : List column) (a b swaps : Nat) :
    Nat × Nat × Nat :=
  if lessAt less data b a = true then (b, a, swaps + 1) else (a, b, swaps)

/-- The function `median_func(data, a, b, c, swaps)`: the index and `swaps`. -/
def median_func (less : column → column → Bool) (data : List column) (a b c swaps : Nat) :
    Nat × Nat :=
  let r1 := order2_func less data a b swaps
  let r2 := order2_func less data r1.2.1 c r1.2.2
  let r3 := order2_func less data r1.1 r2.1 r2.2.2
  (r3.2.1, r3.2.2)

/-- The function `medianAdjacent_func(data, a, swaps)`. -/
def medianAdjacent_func (less : column → column → Bool) (data : List column) (a swaps : Nat) :
    Nat × Nat :=
  median_func less data (a - 1) a (a + 1) swaps

/-- The function `choosePivot_func(data, a, b)`. -/
def choosePivot_func (less : column → column → Bool) (data : List column) (a b : Nat) :
    Nat × sortedHint :=
  let l := b - a
  let swaps := 0
  let i := a + l / 4 * 1
  let j := a + l / 4 * 2
  let k := a + l / 4 * 3
  let r : Nat × Nat :=
    if l ≥ 8 then
      if l ≥ 50 then
        let ri := medianAdjacent_func less data i swaps
        let rj := medianAdjacent_func less data j ri.2
        let rk := medianAdjacent_func less data k rj.2
        median_func less data ri.1 rj.1 rk.1 rk.2
      else median_func less data i j k swaps
    else (j, swaps)
  if r.2 = 0 then (r.1, sortedHint.increasingHint)
  else if r.2 = 12 then (r.1, sortedHint.decreasingHint)
  else (r.1, sortedHint.unknownHint)

/-- The loop of `reverseRange_func`: `for i < j { data.Swap(i, j); i++; j-- }`. -/
def reverseRangeLoop : Nat → List column → Nat → Nat → List column
  | 0, data, _, _ => data
  | fuel + 1, data, i, j =>
    if i < j then reverseRangeLoop fuel (swapAt data i j) (i + 1) (j - 1) else data

/-- The function `reverseRange_func(data, a, b)`. -/
def reverseRange_func (data : List column) (a b : Nat) : List column :=
  reverseRangeLoop (b - a) data a (b - 1)

/-- The loop `for i < b && !data.Less(i, i-1) { i++ }` of `partialInsertionSort_func`. -/
def skipSorted (less : column → column → Bool) (data : List column) (b : Nat) :
    Nat → Nat → Nat
  | 0, i => i
  | fuel + 1, i =>
    if i < b ∧ lessAt less data i (i - 1) = false then skipSorted less data b fuel (i + 1)
    else i

/-- The loop `for j := i - 1; j >= 1; j--` of `partialInsertionSort_func`. -/
def shiftLeft (less : column → column → Bool) : Nat → List column → Nat → List column
  | 0, data, _ => data
  | fuel + 1, data, j =>
    if j ≥ 1 then
      if lessAt less data j (j - 1) = false then data
      else shiftLeft less fuel (swapAt data j (j - 1)) (j - 1)
    else data

/-- The loop `for j := i + 1; j < b; j++` of `partialInsertionSort_func`. -/
def shiftRight (less : column → column → Bool) (b : Nat) : Nat → List column → Nat → List column
  | 0, data, _ => data
  | fuel + 1, data, j =>
    if j < b then
      if lessAt less data j (j - 1) = false then data
      else shiftRight less b fuel (swapAt data j (j - 1)) (j + 1)
    else data

/-- The loop `for j := 0; j < maxSteps; j++` of `partialInsertionSort_func`, with `steps`
iterations to go: the slice and whether it is sorted. -/
def partialInsertionSortLoop (less : column → column → Bool) (a b : Nat) :
    Nat → List column → Nat → List column × Bool
  | 0, data, _ => (data, false)
  | steps + 1, data, i =>
    let i := skipSorted less data b (b + 1) i
    if i = b then (data, true)
    else if b - a < 50 then (data, false)
    else
      let data := swapAt data i (i - 1)
      let data := if i - a ≥ 2 then shiftLeft less i data (i - 1) else data
      let data := if b - i ≥ 2 then shiftRight less b b data (i + 1) else data
      partialInsertionSortLoop less a b steps data i

/-- The function `partialInsertionSort_func(data, a, b)`. -/
def partialInsertionSort_func (less : column → column → Bool) (data : List column)
    (a b : Nat) : List column × Bool :=
  partialInsertionSortLoop less a b 5 data (a + 1)

/-- The loop `for i <= j && data.Less(i, a) { i++ }` of `partition_func`. -/
def skipLess (less : column → column → Bool) (data : List column) (a j : Nat) :
    Nat → Nat → Nat
  | 0, i => i
  | fuel + 1, i =>
    if i ≤ j ∧ lessAt less data i a = true then skipLess less data a j fuel (i + 1) else i

/-- The loop `for i <= j && !data.Less(j, a) { j-- }` of `partition_func`. -/
def skipNotLess (less : column → column → Bool) (data : List column) (a i : Nat) :
    Nat → Nat → Nat
  | 0, j => j
  | fuel + 1, j =>
    if i ≤ j ∧ lessAt less data j a = false then skipNotLess less data a i fuel (j - 1) else j

/-- The loop `for { ... }` of `partition_func`: the slice and the final `j`. -/
def partitionLoop (less : column → column → Bool) (a : Nat) :
    Nat → List column → Nat → Nat → List column × Nat
  | 0, data, _, j => (data, j)
  | fuel + 1, data, i, j =>
    let i := skipLess less data a j (j + 1) i
    let j := skipNotLess less data a i (j + 1) j
    if i > j then (data, j)
    else partitionLoop less a fuel (swapAt data i j) (i + 1) (j - 1)

/-- The function `partition_func(data, a, b, pivot)`: the slice, `newpivot` and
`alreadyPartitioned`. -/
def partition_func (less : column → column → Bool) (data : List column) (a b pivot : Nat) :
    List column × Nat × Bool :=
  let data := swapAt data a pivot
  let i := a + 1
  let j := b - 1
  let i := skipLess less data a j (j + 1) i
  let j := skipNotLess less data a i (j + 1) j
  if i > j then (swapAt data j a, j, true)
  else
    let data := swapAt data i j
    let r := partitionLoop less a (b - a) data (i + 1) (j - 1)
    (swapAt r.1 r.2 a, r.2, false)

/-- The loop `for i <= j && !data.Less(a, i) { i++ }` of `partitionEqual_func`. -/
def skipNotGreater (less : column → column → Bool) (data : List column) (a j : Nat) :
    Nat → Nat → Nat
  | 0, i => i
  | fuel + 1, i =>
    if i ≤ j ∧ lessAt less data a i = false then skipNotGreater less data a j fuel (i + 1)
    else i

/-- The loop `for i <= j && data.Less(a, j) { j-- }` of `partitionEqual_func`. -/
def skipGreater (less : column → column → Bool) (data : List column) (a i : Nat) :
    Nat → Nat → Nat
  | 0, j => j
  | fuel + 1, j =>
    if i ≤ j ∧ lessAt less data a j = true then skipGreater less data a i fuel (j - 1) else j

/-- The loop `for { ... }` of `partitionEqual_func`: the slice and the final `i`. -/
def partitionEqualLoop (less : column → column → Bool) (a : Nat) :
    Nat → List column → Nat → Nat → List column × Nat
  | 0, data, i, _ => (data, i)
  | fuel + 1, data, i, j =>
    let i := skipNotGreater less data a j (j + 1) i
    let j := skipGreater less data a i (j + 1) j
    if i > j then (data, i)
    else partitionEqualLoop less a fuel (swapAt data i j) (i + 1) (j - 1)

/-- The function `partitionEqual_func(data, a, b, pivot)`: the slice and `newpivot`. -/
def partitionEqual_func (less : column → column → Bool) (data : List column)
    (a b pivot : Nat) : List column × Nat :=
  partitionEqualLoop less a (b - a + 1) (swapAt data a pivot) (a + 1) (b - 1)

/-- The function `bits.Len`. -/
def bitsLen (n : Nat) : Nat := if n = 0 then 0 else (Nat.toDigits 2 n).length

/-- The function `pdqsort_func(data, a, b, limit)`: the `for` loop on the state
`(a, b, limit, wasBalanced, wasPartitioned)`; a call of the function enters the loop
with both flags set. -/
def pdqsort_func (breakPatterns : List column → Nat → Nat → List column)
    (less : column → column → Bool) :
    Nat → List column → Nat → Nat → Nat → Bool → Bool → List column
  | 0, data, _, _, _, _, _ => data
  | fuel + 1, data, a, b, limit, wasBalanced, wasPartitioned =>
    let length := b - a
    if length ≤ 12 then insertionSort_func less data a b
    else if limit = 0 then heapSort_func less data a b
    else
      let data := if wasBalanced = false then breakPatterns data a b else data
      let limit := if wasBalanced = false then limit - 1 else limit
      let ph := choosePivot_func less data a b
      let dec : Bool := decide (ph.2 = sortedHint.decreasingHint)
      let data := if dec = true then reverseRange_func data a b else data
      let pivot := if dec = true then (b - 1) - (ph.1 - a) else ph.1
      let hint := if dec = true then sortedHint.increasingHint else ph.2
      let ps : List column × Bool :=
        if wasBalanced = true ∧ wasPartitioned = true ∧ hint = sortedHint.increasingHint then
          partialInsertionSort_func less data a b
        else (data, false)
      if ps.2 = true then ps.1
      else
        let data := ps.1
        if a > 0 ∧ lessAt less data (a - 1) pivot = false then
          let pe := partitionEqual_func less data a b pivot
          pdqsort_func breakPatterns less fuel pe.1 pe.2 b limit wasBalanced wasPartitioned
        else
          let pt := partition_func less data a b pivot
          let data := pt.1
          let mid := pt.2.1
          let leftLen := mid - a
          let rightLen := b - mid
          let balanceThreshold := length / 8
          if leftLen < rightLen then
            let data := pdqsort_func breakPatterns less fuel data a mid limit true true
            pdqsort_func breakPatterns less fuel data (mid + 1) b limit
              (decide (leftLen ≥ balanceThreshold)) pt.2.2
          else
            let data := pdqsort_func breakPatterns less fuel data (mid + 1) b limit true true
            pdqsort_func breakPatterns less fuel data a mid limit
              (decide (rightLen ≥ balanceThreshold)) pt.2.2

/-- The function `sort.Slice(x, less)`:
`pdqsort_func(lessSwap{less, swap}, 0, length, bits.Len(uint(length)))`.  Every iteration
of the loop shortens the range it goes on with, so `length + 1` iterations are enough. -/
def pdqSlice (breakPatterns : List column → Nat → Nat → List column)
    (less : column → column → Bool) (x : List column) : List column :=
  pdqsort_func breakPatterns less (x.length + 1) x 0 x.length (bitsLen x.length) true true

/-- A table entry with thirteen columns, two of which, `a` and `e`, have the sequence
number 9; `a` is visited before `e`. -/
def tieDoc13 : List (String × JVal) :=
  [ ("a", JVal.obj [("type", JVal.str "int"), ("sn", JVal.num 9)]),
    ("b", JVal.obj [("type", JVal.str "int"), ("sn", JVal.num 1)]),
    ("c", JVal.obj [("type", JVal.str "int"), ("sn", JVal.num 2)]),
    ("d", JVal.obj [("type", JVal.str "int"), ("sn", JVal.num 3)]),
    ("e", JVal.obj [("type", JVal.str "int"), ("sn", JVal.num 9)]),
    ("f", JVal.obj [("type", JVal.str "int"), ("sn", JVal.num 10)]),
    ("g", JVal.obj [("type", JVal.str "int"), ("sn", JVal.num 4)]),
    ("h", JVal.obj [("type", JVal.str "int"), ("sn", JVal.num 11)]),
    ("i", JVal.obj [("type", JVal.str "int"), ("sn", JVal.num 12)]),
    ("j", JVal.obj [("type", JVal.str "int"), ("sn", JVal.num 13)]),
    ("k", JVal.obj [("type", JVal.str "int"), ("sn", JVal.num 14)]),
    ("l", JVal.obj [("type", JVal.str "int"), ("sn", JVal.num 15)]),
    ("m", JVal.obj [("type", JVal.str "int"), ("sn", JVal.num 16)]) ]

/-! ## The specification's type table and number conversion -/

/-- The ten storage type names of the specification. -/
def storageTypeNames : List String :=
  [ "tinyint unsigned", "tinyint", "smallint unsigned", "smallint", "int unsigned", "int",
    "bigint unsigned", "bigint", "char", "varchar" ]

/-- The scalar type that the specification lists for a storage type name; the empty
text for a string that is not one of the ten names. -/
def scalarTypeOf (s : String) : String :=
  if s = "tinyint unsigned" then "uint8"
  else if s = "tinyint" then "int8"
  else if s = "smallint unsigned" then "uint16"
  else if s = "smallint" then "int16"
  else if s = "int unsigned" then "uint32"
  else if s = "int" then "int32"
  else if s = "bigint unsigned" then "uint64"
  else if s = "bigint" then "int64"
  else if s = "char" then "string"
  else if s = "varchar" then "string"
  else ""

/-- The whole part of a `float64`: the greatest whole number not above its magnitude,
with its sign. -/
def wholePart (x : float64) : Int :=
  if x.neg = true then -⌊|x.mag|⌋ else ⌊|x.mag|⌋

/-- The 64-bit integer that a `float64` becomes: its whole part when that lies from
-2^63 up to 2^63 - 1, and -2^63 when it does not. -/
def int64Of (x : float64) : Int :=
  if -2 ^ 63 ≤ wholePart x ∧ wholePart x < 2 ^ 63 then wholePart x else -2 ^ 63

/-- An attribute that the specification has `column.parse` reject: a `type` that is not
one of the ten storage type names as a string, a `pk` or `null` that is not a boolean, a
`model_name` or `comment` that is not a string, an `sn` or `size` that is not a number. -/
def RejectedAttribute (k : String) (v : JVal) : Prop :=
  (k = "type" ∧ ¬ ∃ s, s ∈ storageTypeNames ∧ v = JVal.str s) ∨
  ((k = "pk" ∨ k = "null") ∧ ¬ ∃ b, v = JVal.bool b) ∨
  ((k = "model_name" ∨ k = "comment") ∧ ¬ ∃ s, v = JVal.str s) ∨
  ((k = "sn" ∨ k = "size") ∧ ¬ ∃ x, v = JVal.num x)

/-- The recognised fields of the column `c` hold the attributes of the mapping `m`: the
strings and booleans as they are, `default` whatever it is, `sn` and `size` converted to
64-bit integers; a field without its attribute, and the name, are those of the receiver
`c0`. -/
def FieldsFrom (c0 : column) (m : List (String × JVal)) (c : column) : Prop :=
  c.name = c0.name ∧
  FieldFrom "type" (fun c => c.sType) (fun v a => v = JVal.str a) c0 m c ∧
  FieldFrom "pk" (fun c => c.isPk) (fun v a => v = JVal.bool a) c0 m c ∧
  FieldFrom "null" (fun c => c.isNull) (fun v a => v = JVal.bool a) c0 m c ∧
  FieldFrom "default" (fun c => c.iDefault) (fun v a => a = v) c0 m c ∧
  FieldFrom "model_name" (fun c => c.modelName) (fun v a => v = JVal.str a) c0 m c ∧
  FieldFrom "comment" (fun c => c.comment) (fun v a => v = JVal.str a) c0 m c ∧
  FieldFrom "sn" (fun c => c.sn) (fun v a => ∃ x, v = JVal.num x ∧ a = int64Of x) c0 m c ∧
  FieldFrom "size" (fun c => c.iSize) (fun v a => ∃ x, v = JVal.num x ∧ a = int64Of x) c0 m c

/-- An attribute mapping whose `sn` is 2^63, the `float64` that the JSON number
9223372036854775807 decodes to. -/
def largeSnMap : List (String × JVal) :=
  [ ("type", JVal.str "varchar"), ("sn", JVal.num 9223372036854775808),
    ("size", JVal.num 32) ]

/-- The function `pdqsort_func` for as long as it does not call `breakPatterns_func`:
the sorted slice, or `none` when the loop reaches that call. -/
def pdqsortCore (less : column → column → Bool) :
    Nat → List column → Nat → Nat → Nat → Bool → Bool → Option (List column)
  | 0, data, _, _, _, _, _ => some data
  | fuel + 1, data, a, b, limit, wasBalanced, wasPartitioned =>
    let length := b - a
    if length ≤ 12 then some (insertionSort_func less data a b)
    else if limit = 0 then some (heapSort_func less data a b)
    else if wasBalanced = false then none
    else
      let ph := choosePivot_func less data a b
      let dec : Bool := decide (ph.2 = sortedHint.decreasingHint)
      let data := if dec = true then reverseRange_func data a b else data
      let pivot := if dec = true then (b - 1) - (ph.1 - a) else ph.1
      let hint := if dec = true then sortedHint.increasingHint else ph.2
      let ps : List column × Bool :=
        if wasBalanced = true ∧ wasPartitioned = true ∧ hint = sortedHint.increasingHint then
          partialInsertionSort_func less data a b
        else (data, false)
      if ps.2 = true then some ps.1
      else
        let data := ps.1
        if a > 0 ∧ lessAt less data (a - 1) pivot = false then
          let pe := partitionEqual_func less data a b pivot
          pdqsortCore less fuel pe.1 pe.2 b limit wasBalanced wasPartitioned
        else
          let pt := partition_func less data a b pivot
          let data := pt.1
          let mid := pt.2.1
          let leftLen := mid - a
          let rightLen := b - mid
          let balanceThreshold := length / 8
          if leftLen < rightLen then
            match pdqsortCore less fuel data a mid limit true true with
            | none => none
            | some data =>
              pdqsortCore less fuel data (mid + 1) b limit
                (decide (leftLen ≥ balanceThreshold)) pt.2.2
          else
            match pdqsortCore less fuel data (mid + 1) b limit true true with
            | none => none
            | some data =>
              pdqsortCore less fuel data a mid limit
                (decide (rightLen ≥ balanceThreshold)) pt.2.2

/-! ## Texts -/

theorem len_eq_zero_iff (s : String) : len s = 0 ↔ s = "" := by
  obtain ⟨l⟩ := s
  cases l with
  | nil => simp [len, String.utf8ByteSize, String.utf8ByteSize.go]
  | cons c cs =>
    have h := Char.utf8Size_pos c
    simp only [len, String.utf8ByteSize, String.utf8ByteSize.go]
    constructor
    · intro h0; omega
    · intro h0; exact absurd (congrArg String.data h0) (by simp)

theorem append_ne_empty_left (a b : String) (h : a ≠ "") : a ++ b ≠ "" := by
  intro h0
  apply h
  have := congrArg String.data h0
  simp only [String.data_append] at this
  apply String.ext
  simp at this
  simp [this.1]

theorem quote_ne_empty (b : String) : "`" ++ b ≠ "" :=
  append_ne_empty_left _ _ (by decide)

theorem sconcat_append (xs ys : List String) : sconcat (xs ++ ys) = sconcat xs ++ sconcat ys := by
  induction xs with
  | nil => simp [sconcat]
  | cons x xs ih => simp [sconcat, ih, String.append_assoc]

theorem defaultClause_eq (fmtV : JVal → String) (c : column) :
    defaultClause fmtV c =
      if c.iDefault.notNil = true then
        (if c.sType = "varchar" ∨ c.sType = "char" then " DEFAULT ''"
         else " DEFAULT " ++ fmtV c.iDefault)
      else "" := by
  unfold defaultClause
  cases h : c.iDefault <;> simp [JVal.notNil, or_comm]

theorem columnType_eq (c : column) :
    columnType c =
      if c.sType = "varchar" ∨ c.sType = "char" then
        "`" ++ c.name ++ "` " ++ c.sType ++ "(" ++ fmtD c.iSize ++ ")"
      else "`" ++ c.name ++ "` " ++ c.sType := by
  unfold columnType
  simp [or_comm]

theorem generateCreateSQLBody_eq (fmtV : JVal → String) (n i : Nat) (c : column)
    (sql pk : String) :
    generateCreateSQLBody fmtV n i c (sql, pk) =
      (sql ++ (columnDef fmtV c ++
        (if (i : Int) = (n : Int) - 1 ∧ len (pkStep pk c) = 0 then "\n" else ",\n")),
       pkStep pk c) := by
  simp only [generateCreateSQLBody, columnDef, defaultClause_eq, columnType_eq, nullClause,
    commentClause, pkStep]
  split_ifs <;> simp_all [String.append_assoc]

theorem generateAlterSQLBody_eq (fmtV : JVal → String) (t : table) (sql : String) (c : column) :
    generateAlterSQLBody fmtV t sql c =
      sql ++ ("ALTER TABLE `" ++ t.name ++ "` CHANGE `" ++ c.name ++ "` " ++ columnDef fmtV c ++ ";\n") := by
  simp only [generateAlterSQLBody, columnDef, defaultClause_eq, columnType_eq, nullClause,
    commentClause]
  split_ifs <;> simp_all [String.append_assoc]

theorem generateAddSQLBody_eq (fmtV : JVal → String) (t : table) (sql pre : String) (c : column) :
    generateAddSQLBody fmtV t (sql, pre) c =
      (sql ++ ("ALTER TABLE `" ++ t.name ++ "` ADD " ++ columnDef fmtV c ++
        (if len pre > 0 then " AFTER `" ++ pre ++ "`;\n" else ";\n")), c.name) := by
  have hq : ∀ x : String, "'" ++ (" AFTER `" ++ x) = "' AFTER `" ++ x := fun x => by
    rw [← String.append_assoc]; rfl
  simp only [generateAddSQLBody, columnDef, defaultClause_eq, columnType_eq, nullClause,
    commentClause]
  split_ifs <;> simp_all [String.append_assoc]

theorem pkStep_eq_empty_iff (pk : String) (c : column) :
    pkStep pk c = "" ↔ pk = "" ∧ c.isPk = false := by
  unfold pkStep
  by_cases hc : c.isPk = true
  · simp only [hc, if_true]
    constructor
    · intro h
      exfalso
      split_ifs at h with h0
      · exact append_ne_empty_left _ _ (quote_ne_empty c.name) h
      · exact append_ne_empty_left _ _ (mt (len_eq_zero_iff pk).2 h0) h
    · rintro ⟨_, h⟩; simp at h
  · simp [hc]

theorem pkFold_eq_empty_iff (cs : List column) (pk : String) :
    pkFold pk cs = "" ↔ pk = "" ∧ cs.any (fun c => c.isPk) = false := by
  induction cs generalizing pk with
  | nil => simp [pkFold]
  | cons c cs ih =>
    have := ih (pkStep pk c)
    simp only [pkFold, List.foldl_cons] at this ⊢
    rw [this, pkStep_eq_empty_iff]
    simp [and_assoc]

theorem generateCreateSQLLoop_eq (fmtV : JVal → String) (n : Nat) (cs : List column) :
    ∀ (i : Nat) (sql pk : String), i + cs.length = n →
      generateCreateSQLLoop fmtV n i cs (sql, pk) =
        (sql ++ sconcat (createClausesFrom fmtV n pk i cs), pkFold pk cs) := by
  induction cs with
  | nil => intro i sql pk _; simp [generateCreateSQLLoop, createClausesFrom, sconcat, pkFold]
  | cons c cs ih =>
    intro i sql pk hn
    simp only [List.length_cons] at hn
    rw [generateCreateSQLLoop, generateCreateSQLBody_eq, ih (i + 1) _ _ (by omega)]
    have hcond : ((i : Int) = (n : Int) - 1 ∧ len (pkStep pk c) = 0) ↔
        (i + 1 = n ∧ pk = "" ∧ (c :: cs).any (fun c => c.isPk) = false) := by
      rw [len_eq_zero_iff, pkStep_eq_empty_iff]
      constructor
      · rintro ⟨h1, h2, h3⟩
        have hi : i + 1 = n := by omega
        have hcs : cs = [] := List.length_eq_zero.1 (by omega)
        subst hcs
        exact ⟨hi, h2, by simp [h3]⟩
      · rintro ⟨h1, h2, h3⟩
        simp only [List.any_cons, Bool.or_eq_false_iff] at h3
        exact ⟨by omega, h2, h3.1⟩
    simp only [createClausesFrom, sconcat, pkFold, List.foldl_cons, hcond, String.append_assoc]

theorem joinWith_cons (sep a : String) (l : List String) :
    joinWith sep (a :: l) = a ++ sconcat (l.map (fun s => sep ++ s)) := by
  induction l generalizing a with
  | nil => simp [joinWith, sconcat]
  | cons b l ih => simp [joinWith, sconcat, ih b, String.append_assoc]

theorem pkFold_of_ne_empty (cs : List column) (pk : String) (h : pk ≠ "") :
    pkFold pk cs = pk ++ sconcat ((pkNames cs).map (fun s => "," ++ s)) := by
  induction cs generalizing pk with
  | nil => simp [pkFold, pkNames, sconcat]
  | cons c cs ih =>
    have hstep : pkStep pk c ≠ "" := fun h0 => h ((pkStep_eq_empty_iff pk c).1 h0).1
    have := ih (pkStep pk c) hstep
    simp only [pkFold, List.foldl_cons] at this ⊢
    rw [this]
    have hl : len pk ≠ 0 := mt (len_eq_zero_iff pk).1 h
    by_cases hc : c.isPk = true
    · have hq : ∀ x : String, "," ++ ("`" ++ x) = ",`" ++ x := fun x => by
        rw [← String.append_assoc]; rfl
      simp [pkStep, pkNames, hc, hl, sconcat, String.append_assoc, hq]
    · simp [pkStep, pkNames, hc]

theorem pkFold_empty (cs : List column) : pkFold "" cs = joinWith "," (pkNames cs) := by
  induction cs with
  | nil => simp [pkFold, pkNames, joinWith]
  | cons c cs ih =>
    by_cases hc : c.isPk = true
    · have hstep : pkStep "" c = "`" ++ c.name ++ "`" := by simp [pkStep, hc, len_eq_zero_iff]
      have hne : "`" ++ c.name ++ "`" ≠ "" :=
        append_ne_empty_left _ _ (quote_ne_empty c.name)
      have := pkFold_of_ne_empty cs _ hne
      simp only [pkFold, List.foldl_cons, hstep] at this ⊢
      rw [this]
      have hn : pkNames (c :: cs) = ("`" ++ c.name ++ "`") :: pkNames cs := by
        simp [pkNames, hc]
      rw [hn, joinWith_cons]
    · have hstep : pkStep "" c = "" := by simp [pkStep, hc]
      have hn : pkNames (c :: cs) = pkNames cs := by simp [pkNames, hc]
      simp only [pkFold, List.foldl_cons, hstep] at ih ⊢
      rw [ih, hn]

theorem createClausesFrom_eq (fmtV : JVal → String) (n : Nat) (cs : List column) :
    ∀ (i : Nat) (pk : String),
      createClausesFrom fmtV n pk i cs =
        (cs.enumFrom i).map (fun p =>
          columnDef fmtV p.2 ++
            (if p.1 + 1 = n ∧ pk = "" ∧ cs.any (fun c => c.isPk) = false then "\n" else ",\n")) := by
  induction cs with
  | nil => intro i pk; simp [createClausesFrom]
  | cons c cs ih =>
    intro i pk
    rw [createClausesFrom, ih (i + 1) (pkStep pk c), List.enumFrom_cons, List.map_cons]
    congr 1
    apply List.map_congr_left
    intro p _
    have : (pkStep pk c = "" ∧ cs.any (fun c => c.isPk) = false) ↔
        (pk = "" ∧ (c :: cs).any (fun c => c.isPk) = false) := by
      rw [pkStep_eq_empty_iff]
      simp [and_assoc]
    simp only [this]

theorem indexLoop_eq (cs : List String) :
    ∀ (i : Nat) (nm ct : String),
      indexLoop i cs (nm, ct) =
        (nm ++ sconcat (cs.map (fun c => "_" ++ c)),
         ct ++ (if i = 0 then joinWith ", " (cs.map (fun c => "`" ++ c ++ "`"))
                else sconcat (cs.map (fun c => ", " ++ ("`" ++ c ++ "`"))))) := by
  induction cs with
  | nil => intro i nm ct; simp [indexLoop, sconcat, joinWith]
  | cons c cs ih =>
    intro i nm ct
    have hq : ∀ x : String, ", " ++ ("`" ++ x) = ", `" ++ x := fun x => by
      rw [← String.append_assoc]; rfl
    rw [indexLoop, ih]
    by_cases hi : i = 0
    · simp [hi, sconcat, joinWith_cons, String.append_assoc, List.map_map, Function.comp_def]
    · simp [hi, sconcat, String.append_assoc, hq]

theorem generateCreateSQLIndexBody_eq (t : table) (sql : String) (idx : index) :
    generateCreateSQLIndexBody t sql idx = sql ++ createIndexStmt t idx := by
  simp [generateCreateSQLIndexBody, createIndexStmt, indexLoop_eq, String.append_assoc]

theorem foldl_append_eq {α : Type} (f : String → α → String) (g : α → String)
    (h : ∀ s a, f s a = s ++ g a) (l : List α) (s : String) :
    l.foldl f s = s ++ sconcat (l.map g) := by
  induction l generalizing s with
  | nil => simp [sconcat]
  | cons a l ih => simp [ih, h, sconcat, String.append_assoc]

/-- The Create statement, clause by clause. -/
theorem generateCreateSQL_eq (fmtV : JVal → String) (t : table) :
    t.generateCreateSQL fmtV =
      createHead t ++ sconcat (createClauses fmtV t.columns) ++ primaryKeyClause t.columns ++
        createTail t := by
  have hidx : ∀ sql : String,
      (if t.indexs.length > 0 then t.indexs.foldl (generateCreateSQLIndexBody t) sql else sql) =
        sql ++ sconcat (t.indexs.map (createIndexStmt t)) := by
    intro sql
    rw [foldl_append_eq _ _ (generateCreateSQLIndexBody_eq t)]
    split_ifs with h
    · rfl
    · have : t.indexs = [] := List.length_eq_zero.1 (by omega)
      simp [this, sconcat]
  have hpk : ∀ sql : String,
      (if len (pkFold "" t.columns) > 0 then
          sql ++ ("PRIMARY KEY(" ++ pkFold "" t.columns ++ ")\n") else sql) =
        sql ++ primaryKeyClause t.columns := by
    intro sql
    have h0 := pkFold_eq_empty_iff t.columns ""
    have h1 := len_eq_zero_iff (pkFold "" t.columns)
    unfold primaryKeyClause
    by_cases hany : t.columns.any (fun c => c.isPk) = true
    · have : len (pkFold "" t.columns) > 0 := by
        apply Nat.pos_of_ne_zero
        intro hz
        have := (h0.1 (h1.1 hz)).2
        simp [hany] at this
      rw [if_pos this, if_pos hany, pkFold_empty]
    · have hz : len (pkFold "" t.columns) = 0 := h1.2 (h0.2 ⟨rfl, by simpa using hany⟩)
      simp [hz, hany]
  simp only [table.generateCreateSQL,
    generateCreateSQLLoop_eq fmtV t.columns.length t.columns 0 _ "" (by simp), hidx, hpk]
  simp only [createClausesFrom_eq, createClauses, List.enum, createHead, createTail,
    true_and, String.append_assoc]
  apply String.ext
  simp [String.data_append]

/-! ## The Alter, Drop and Add scripts -/

theorem generateAlterSQL_eq (fmtV : JVal → String) (t : table) :
    t.generateAlterSQL fmtV =
      scriptHead t ++ sconcat (t.columns.map (alterStmt fmtV t)) ++ "\n" := by
  have hb : ∀ s c, generateAlterSQLBody fmtV t s c = s ++ alterStmt fmtV t c := by
    intro s c
    rw [generateAlterSQLBody_eq, alterStmt]
  simp only [table.generateAlterSQL, foldl_append_eq _ _ hb, scriptHead, String.append_assoc]
  apply String.ext
  simp [String.data_append]

theorem generateDropSQL_eq (t : table) :
    t.generateDropSQL = scriptHead t ++ sconcat (t.columns.map (dropStmt t)) ++ "\n" := by
  have hb : ∀ s c, generateDropSQLBody t s c = s ++ dropStmt t c := by
    intro s c
    simp [generateDropSQLBody, dropStmt, String.append_assoc]
  simp only [table.generateDropSQL, foldl_append_eq _ _ hb, scriptHead, String.append_assoc]
  apply String.ext
  simp [String.data_append]

theorem generateAddSQL_foldl (fmtV : JVal → String) (t : table) (cs : List column) :
    ∀ (sql pre : String),
      (cs.foldl (generateAddSQLBody fmtV t) (sql, pre)).1 =
        sql ++ sconcat (List.zipWith (addStmt fmtV t) cs (pre :: cs.map (fun c => c.name))) := by
  induction cs with
  | nil => intro sql pre; simp [sconcat]
  | cons c cs ih =>
    intro sql pre
    have hpre : (len pre > 0) ↔ ¬ pre = "" := by
      rw [← len_eq_zero_iff]; omega
    rw [List.foldl_cons, generateAddSQLBody_eq, ih]
    simp only [List.map_cons, List.zipWith_cons_cons, sconcat, addStmt, hpre, ite_not,
      String.append_assoc]

theorem generateAddSQL_eq (fmtV : JVal → String) (t : table) :
    t.generateAddSQL fmtV = scriptHead t ++ sconcat (addStmts fmtV t) ++ "\n" := by
  simp only [table.generateAddSQL, generateAddSQL_foldl, addStmts, scriptHead,
    String.append_assoc]
  apply String.ext
  simp [String.data_append]

/-! ## The model file -/

theorem outputModelCodeBody_eq (code : String) (ex : Bool) (c : column) :
    outputModelCodeBody (code, ex) c = (code ++ modelField c (c.isPk && !ex), (ex || c.isPk)) := by
  simp only [outputModelCodeBody, modelField]
  cases ex <;> cases hp : c.isPk <;> split_ifs <;> simp_all [String.append_assoc]

theorem outputModelCode_foldl (cs : List column) :
    ∀ (code : String) (ex : Bool),
      (cs.foldl outputModelCodeBody (code, ex)).1 =
        code ++ sconcat (List.zipWith modelField cs (pkMarksFrom ex cs)) := by
  induction cs with
  | nil => intro code ex; simp [sconcat, pkMarksFrom]
  | cons c cs ih =>
    intro code ex
    rw [List.foldl_cons, outputModelCodeBody_eq, ih]
    simp only [pkMarksFrom, List.zipWith_cons_cons, sconcat, String.append_assoc]

theorem outputModelCode_eq (t : table) :
    t.outputModelCode =
      modelHead t ++ sconcat (List.zipWith modelField t.columns (pkMarksFrom false t.columns)) ++
        "\x7d\n" := by
  simp only [table.outputModelCode, outputModelCode_foldl, modelHead]

theorem pkMarksFrom_length (cs : List column) : ∀ ex, (pkMarksFrom ex cs).length = cs.length := by
  induction cs with
  | nil => intro ex; rfl
  | cons c cs ih => intro ex; simp [pkMarksFrom, ih]

theorem pkMarksFrom_true_count (cs : List column) : (pkMarksFrom true cs).count true = 0 := by
  induction cs with
  | nil => rfl
  | cons c cs ih => simpa [pkMarksFrom] using ih

theorem pkMarksFrom_count_le (cs : List column) : ∀ ex, (pkMarksFrom ex cs).count true ≤ 1 := by
  induction cs with
  | nil => intro ex; simp [pkMarksFrom]
  | cons c cs ih =>
    intro ex
    cases ex
    · cases hp : c.isPk
      · simpa [pkMarksFrom, hp] using ih false
      · simp [pkMarksFrom, hp, pkMarksFrom_true_count]
    · simp [pkMarksFrom, pkMarksFrom_true_count]

theorem pkMarksFrom_getElem? (cs : List column) :
    ∀ (ex : Bool) (i : Nat),
      (pkMarksFrom ex cs)[i]? = some true ↔
        ex = false ∧ ∃ c, cs[i]? = some c ∧ c.isPk = true ∧
          ∀ j, j < i → ∀ d, cs[j]? = some d → d.isPk = false := by
  induction cs with
  | nil => intro ex i; simp [pkMarksFrom]
  | cons c cs ih =>
    intro ex i
    cases i with
    | zero => cases ex <;> simp [pkMarksFrom]
    | succ i =>
      simp only [pkMarksFrom, List.getElem?_cons_succ, ih]
      constructor
      · rintro ⟨h0, c1, h1, h2, h3⟩
        simp only [Bool.or_eq_false_iff] at h0
        refine ⟨h0.1, c1, h1, h2, ?_⟩
        intro j hj d hd
        cases j with
        | zero => simp at hd; rw [← hd]; exact h0.2
        | succ j => exact h3 j (by omega) d (by simpa using hd)
      · rintro ⟨h0, c1, h1, h2, h3⟩
        refine ⟨?_, c1, h1, h2, ?_⟩
        · simp [h0, h3 0 (by omega) c (by simp)]
        · intro j hj d hd
          exact h3 (j + 1) (by omega) d (by simpa using hd)

/-! ## Parsing a column -/

theorem badEntry_iff (k : String) (v : JVal) :
    badEntry k v = true ↔
      (k = TYPE ∧ v.isKnownType = false) ∨ ((k = PK ∨ k = NULL) ∧ v.isBool = false) ∨
      ((k = MODEL_NAME ∨ k = COMMENT) ∧ v.isString = false) ∨
      ((k = SN ∨ k = SIZE) ∧ v.isNumber = false) := by
  simp [badEntry, or_assoc]

theorem parseEntry_of_bad (c : column) (k : String) (v : JVal) (h : badEntry k v = true) :
    c.parseEntry k v = .error Failure.ERR_PARSE_FAILED := by
  rw [badEntry_iff] at h
  unfold column.parseEntry
  split_ifs with h1 h2 h3 h4 h5 h6 h7 h8 <;>
    simp_all [TYPE, PK, NULL, MODEL_NAME, COMMENT, SN, SIZE, DEFAULT] <;>
    cases v <;> simp_all [JVal.isKnownType, JVal.isBool, JVal.isString, JVal.isNumber]
  

theorem parseEntry_of_not_bad (c : column) (k : String) (v : JVal) (h : badEntry k v = false) :
    ∃ c1, c.parseEntry k v = .ok c1 := by
  have h0 : ¬ badEntry k v = true := by simp [h]
  rw [badEntry_iff] at h0
  unfold column.parseEntry
  split_ifs with h1 h2 h3 h4 h5 h6 h7 h8 <;>
    simp_all [TYPE, PK, NULL, MODEL_NAME, COMMENT, SN, SIZE, DEFAULT] <;>
    cases v <;> simp_all [JVal.isKnownType, JVal.isBool, JVal.isString, JVal.isNumber]
  case pos.str s =>
    cases hl : typeMapLookup s <;> simp_all

theorem parse_error_iff (m : List (String × JVal)) :
    ∀ c : column, c.parse m = .error Failure.ERR_PARSE_FAILED ↔
      m.any (fun p => badEntry p.1 p.2) = true := by
  induction m with
  | nil => intro c; simp [column.parse]
  | cons p m ih =>
    intro c
    obtain ⟨k, v⟩ := p
    rw [column.parse, List.any_cons]
    cases hb : badEntry k v
    · obtain ⟨c1, hc1⟩ := parseEntry_of_not_bad c k v hb
      simp [hc1, ih c1]
    · simp [parseEntry_of_bad c k v hb]

theorem parse_ok_of_no_bad (m : List (String × JVal)) :
    ∀ c : column, m.any (fun p => badEntry p.1 p.2) = false → ∃ c1, c.parse m = .ok c1 := by
  induction m with
  | nil => intro c _; exact ⟨c, rfl⟩
  | cons p m ih =>
    intro c h
    obtain ⟨k, v⟩ := p
    rw [List.any_cons, Bool.or_eq_false_iff] at h
    obtain ⟨c1, hc1⟩ := parseEntry_of_not_bad c k v h.1
    obtain ⟨c2, hc2⟩ := ih c1 h.2
    exact ⟨c2, by rw [column.parse, hc1]; exact hc2⟩

theorem parse_cons_ok (c0 c : column) (k : String) (v : JVal) (m : List (String × JVal))
    (h : c0.parse ((k, v) :: m) = .ok c) :
    ∃ c1, c0.parseEntry k v = .ok c1 ∧ c1.parse m = .ok c := by
  rw [column.parse] at h
  cases hc : c0.parseEntry k v with
  | error e => simp [hc] at h
  | ok c1 => exact ⟨c1, rfl, by simpa [hc] using h⟩

/-- A field that an entry sets when its key is `key` and leaves alone otherwise ends
up holding the attribute `key` of a mapping with distinct keys. -/
theorem parse_fieldFrom {α : Type} (key : String) (f : column → α) (R : JVal → α → Prop)
    (hstep : ∀ (c : column) (k : String) (v : JVal) (c1 : column),
      c.parseEntry k v = .ok c1 → (k = key → R v (f c1)) ∧ (k ≠ key → f c1 = f c))
    (m : List (String × JVal)) :
    ∀ (c0 c : column), (m.map Prod.fst).Nodup → c0.parse m = .ok c →
      FieldFrom key f R c0 m c := by
  induction m with
  | nil =>
    intro c0 c _ h
    simp only [column.parse, Except.ok.injEq] at h
    subst h
    exact ⟨by simp, fun _ => rfl⟩
  | cons p m ih =>
    intro c0 c hnd h
    obtain ⟨k, v⟩ := p
    obtain ⟨c1, hc1, hc⟩ := parse_cons_ok c0 c k v m h
    simp only [List.map_cons, List.nodup_cons] at hnd
    obtain ⟨hR, hF⟩ := ih c1 c hnd.2 hc
    obtain ⟨hs1, hs2⟩ := hstep c0 k v c1 hc1
    constructor
    · intro w hw
      rcases List.mem_cons.1 hw with heq | hmem
      · cases heq
        have hno : ∀ u, (key, u) ∉ m := fun u hu =>
          hnd.1 (List.mem_map.2 ⟨(key, u), hu, rfl⟩)
        rw [hF hno]
        exact hs1 rfl
      · exact hR w hmem
    · intro hno
      have hk : k ≠ key := fun hk => hno v (by simp [hk])
      have hno1 : ∀ u, (key, u) ∉ m := fun u hu => hno u (List.mem_cons_of_mem _ hu)
      rw [hF hno1, hs2 hk]

theorem parse_name (m : List (String × JVal)) :
    ∀ (c0 c : column), c0.parse m = .ok c → c.name = c0.name := by
  induction m with
  | nil => intro c0 c h; simp only [column.parse, Except.ok.injEq] at h; rw [h]
  | cons p m ih =>
    intro c0 c h
    obtain ⟨k, v⟩ := p
    obtain ⟨c1, hc1, hc⟩ := parse_cons_ok c0 c k v m h
    rw [ih c1 c hc]
    unfold column.parseEntry at hc1
    split_ifs at hc1 <;> cases v <;> simp at hc1 <;> try (rw [← hc1])
    case pos.str s =>
      cases hl : typeMapLookup s <;> simp [hl] at hc1
      rw [← hc1]

theorem parseEntry_sType (c : column) (k : String) (v : JVal) (c1 : column)
    (h : c.parseEntry k v = .ok c1) :
    (k = TYPE → v = JVal.str c1.sType) ∧ (k ≠ TYPE → c1.sType = c.sType) := by
  unfold column.parseEntry at h
  split_ifs at h with h1 h2 h3 h4 h5 h6 h7 h8 <;> cases v <;> simp at h <;>
    (try split at h) <;> (try simp at h) <;>
    (subst h; simp_all [TYPE, PK, NULL, MODEL_NAME, COMMENT, SN, SIZE, DEFAULT])

theorem parseEntry_isPk (c : column) (k : String) (v : JVal) (c1 : column)
    (h : c.parseEntry k v = .ok c1) :
    (k = PK → v = JVal.bool c1.isPk) ∧ (k ≠ PK → c1.isPk = c.isPk) := by
  unfold column.parseEntry at h
  split_ifs at h with h1 h2 h3 h4 h5 h6 h7 h8 <;> cases v <;> simp at h <;>
    (try split at h) <;> (try simp at h) <;>
    (subst h; simp_all [TYPE, PK, NULL, MODEL_NAME, COMMENT, SN, SIZE, DEFAULT])

theorem parseEntry_isNull (c : column) (k : String) (v : JVal) (c1 : column)
    (h : c.parseEntry k v = .ok c1) :
    (k = NULL → v = JVal.bool c1.isNull) ∧ (k ≠ NULL → c1.isNull = c.isNull) := by
  unfold column.parseEntry at h
  split_ifs at h with h1 h2 h3 h4 h5 h6 h7 h8 <;> cases v <;> simp at h <;>
    (try split at h) <;> (try simp at h) <;>
    (subst h; simp_all [TYPE, PK, NULL, MODEL_NAME, COMMENT, SN, SIZE, DEFAULT])

theorem parseEntry_iDefault (c : column) (k : String) (v : JVal) (c1 : column)
    (h : c.parseEntry k v = .ok c1) :
    (k = DEFAULT → c1.iDefault = v) ∧ (k ≠ DEFAULT → c1.iDefault = c.iDefault) := by
  unfold column.parseEntry at h
  split_ifs at h with h1 h2 h3 h4 h5 h6 h7 h8 <;> cases v <;> simp at h <;>
    (try split at h) <;> (try simp at h) <;>
    (subst h; simp_all [TYPE, PK, NULL, MODEL_NAME, COMMENT, SN, SIZE, DEFAULT])

theorem parseEntry_modelName (c : column) (k : String) (v : JVal) (c1 : column)
    (h : c.parseEntry k v = .ok c1) :
    (k = MODEL_NAME → v = JVal.str c1.modelName) ∧ (k ≠ MODEL_NAME → c1.modelName = c.modelName) := by
  unfold column.parseEntry at h
  split_ifs at h with h1 h2 h3 h4 h5 h6 h7 h8 <;> cases v <;> simp at h <;>
    (try split at h) <;> (try simp at h) <;>
    (subst h; simp_all [TYPE, PK, NULL, MODEL_NAME, COMMENT, SN, SIZE, DEFAULT])

theorem parseEntry_comment (c : column) (k : String) (v : JVal) (c1 : column)
    (h : c.parseEntry k v = .ok c1) :
    (k = COMMENT → v = JVal.str c1.comment) ∧ (k ≠ COMMENT → c1.comment = c.comment) := by
  unfold column.parseEntry at h
  split_ifs at h with h1 h2 h3 h4 h5 h6 h7 h8 <;> cases v <;> simp at h <;>
    (try split at h) <;> (try simp at h) <;>
    (subst h; simp_all [TYPE, PK, NULL, MODEL_NAME, COMMENT, SN, SIZE, DEFAULT])

theorem parseEntry_sn (c : column) (k : String) (v : JVal) (c1 : column)
    (h : c.parseEntry k v = .ok c1) :
    (k = SN → ∃ x, v = JVal.num x ∧ c1.sn = goInt x) ∧ (k ≠ SN → c1.sn = c.sn) := by
  unfold column.parseEntry at h
  split_ifs at h with h1 h2 h3 h4 h5 h6 h7 h8 <;> cases v <;> simp at h <;>
    (try split at h) <;> (try simp at h) <;>
    (subst h; simp_all [TYPE, PK, NULL, MODEL_NAME, COMMENT, SN, SIZE, DEFAULT])

theorem parseEntry_iSize (c : column) (k : String) (v : JVal) (c1 : column)
    (h : c.parseEntry k v = .ok c1) :
    (k = SIZE → ∃ x, v = JVal.num x ∧ c1.iSize = goInt x) ∧ (k ≠ SIZE → c1.iSize = c.iSize) := by
  unfold column.parseEntry at h
  split_ifs at h with h1 h2 h3 h4 h5 h6 h7 h8 <;> cases v <;> simp at h <;>
    (try split at h) <;> (try simp at h) <;>
    (subst h; simp_all [TYPE, PK, NULL, MODEL_NAME, COMMENT, SN, SIZE, DEFAULT])

/-- The fields of an accepted column, attribute by attribute. -/
theorem parse_parsedFrom (c0 c : column) (m : List (String × JVal))
    (hnd : (m.map Prod.fst).Nodup) (h : c0.parse m = .ok c) : ParsedFrom c0 m c :=
  ⟨parse_name m c0 c h,
   parse_fieldFrom TYPE _ _ parseEntry_sType m c0 c hnd h,
   parse_fieldFrom PK _ _ parseEntry_isPk m c0 c hnd h,
   parse_fieldFrom NULL _ _ parseEntry_isNull m c0 c hnd h,
   parse_fieldFrom DEFAULT _ _ parseEntry_iDefault m c0 c hnd h,
   parse_fieldFrom MODEL_NAME _ _ parseEntry_modelName m c0 c hnd h,
   parse_fieldFrom COMMENT _ _ parseEntry_comment m c0 c hnd h,
   parse_fieldFrom SN _ _ parseEntry_sn m c0 c hnd h,
   parse_fieldFrom SIZE _ _ parseEntry_iSize m c0 c hnd h⟩

theorem parse_sType_known (m : List (String × JVal)) :
    ∀ (c0 c : column), c0.parse m = .ok c →
      (typeMapLookup c.sType).isSome = true ∨ (c.sType = c0.sType ∧ ∀ v, (TYPE, v) ∉ m) := by
  induction m with
  | nil =>
    intro c0 c h
    simp only [column.parse, Except.ok.injEq] at h
    subst h
    exact Or.inr ⟨rfl, by simp⟩
  | cons p m ih =>
    intro c0 c h
    obtain ⟨k, v⟩ := p
    obtain ⟨c1, hc1, hc⟩ := parse_cons_ok c0 c k v m h
    rcases ih c1 c hc with hk | ⟨heq, hno⟩
    · exact Or.inl hk
    · by_cases hkey : k = TYPE
      · left
        have hv := (parseEntry_sType c0 k v c1 hc1).1 hkey
        have hnb : badEntry k v = false := by
          cases hb : badEntry k v
          · rfl
          · rw [parseEntry_of_bad c0 k v hb] at hc1
            cases hc1
        have : v.isKnownType = true := by
          cases hkt : v.isKnownType
          · have : badEntry k v = true := (badEntry_iff k v).2 (Or.inl ⟨hkey, hkt⟩)
            rw [hnb] at this
            cases this
          · rfl
        rw [hv] at this
        rw [heq]
        simpa [JVal.isKnownType] using this
      · right
        refine ⟨by rw [heq, (parseEntry_sType c0 k v c1 hc1).2 hkey], ?_⟩
        intro w hw
        rcases List.mem_cons.1 hw with h1 | h1
        · cases h1; exact hkey rfl
        · exact hno w h1

/-! ## Loading and sorting -/

theorem snLess_lessOrdering : LessOrdering snLess := by
  refine ⟨fun a => by simp [snLess], fun a b c => ?_, fun a b c => ?_⟩ <;>
    simp only [snLess, decide_eq_true_eq, decide_eq_false_iff_not] <;> omega

theorem exchange_perm (less : column → column → Bool) (front : List column) :
    ∀ back : List column,
      ((exchange less front back).1 ++ (exchange less front back).2).Perm (front ++ back) := by
  induction front with
  | nil => intro back; simp [exchange]
  | cons a front ih =>
    intro back
    cases back with
    | nil => simp [exchange]
    | cons b back =>
      have h := ih back
      simp only [exchange]
      split_ifs
      · -- b :: p.1 ++ a :: p.2  ~  a :: front ++ b :: back
        have h1 : (b :: (exchange less front back).1 ++ a :: (exchange less front back).2).Perm
            (b :: a :: ((exchange less front back).1 ++ (exchange less front back).2)) := by
          simp
        have h2 : (a :: front ++ b :: back).Perm (a :: b :: (front ++ back)) := by
          simp
        exact h1.trans (((h.cons a).cons b).trans ((List.Perm.swap a b _).trans h2.symm))
      · have h1 : (a :: (exchange less front back).1 ++ b :: (exchange less front back).2).Perm
            (a :: b :: ((exchange less front back).1 ++ (exchange less front back).2)) := by
          simp
        have h2 : (a :: front ++ b :: back).Perm (a :: b :: (front ++ back)) := by
          simp
        exact h1.trans (((h.cons b).cons a).trans h2.symm)

theorem gapPass_perm (less : column → column → Bool) (x : List column) :
    (gapPass less x).Perm x := by
  have h := exchange_perm less (x.take 6) (x.drop 6)
  rw [List.take_append_drop] at h
  exact h

theorem shellSortSlice_contract : SortSliceContract shellSortSlice := by
  intro less hl x
  obtain ⟨hirr, htr, hntr⟩ := hl
  constructor
  · exact (List.perm_insertionSort _ _).trans (gapPass_perm less x)
  · haveI : IsTotal column (fun a b => less b a = false) := ⟨fun a b => by
      cases hba : less b a
      · exact Or.inl rfl
      · cases hab : less a b
        · exact Or.inr rfl
        · have := htr a b a hab hba
          rw [hirr a] at this
          cases this⟩
    haveI : IsTrans column (fun a b => less b a = false) :=
      ⟨fun a b c hab hbc => hntr c b a hbc hab⟩
    exact List.sorted_insertionSort (fun a b => less b a = false) _

theorem parseIndex_columns (indexSlice : List JVal) :
    ∀ (t t1 : table), t.parseIndex indexSlice = .ok t1 → t1.columns = t.columns := by
  induction indexSlice with
  | nil => intro t t1 h; simp only [table.parseIndex, Except.ok.injEq] at h; rw [← h]
  | cons v rest ih =>
    intro t t1 h
    cases v <;> simp only [table.parseIndex] at h <;> try (cases h)
    case arr xs =>
      cases hg : parseIndexGroup NewIndex xs with
      | error e => simp [hg] at h
      | ok idx =>
        simp only [hg] at h
        have := ih _ _ h
        simpa using this

theorem loadEntry_columns (t t1 : table) (k : String) (v : JVal)
    (h : loadEntry t k v = .ok t1) :
    (isColumnKey k = false ∧ t1.columns = t.columns) ∨
    (isColumnKey k = true ∧ ∃ c, ParsedColumn (k, v) c ∧ t1.columns = t.columns ++ [c]) := by
  unfold loadEntry at h
  split_ifs at h with h1 h2 h3
  · left
    refine ⟨by simp [isColumnKey, h1], ?_⟩
    cases v <;> simp at h
    rw [← h]
  · left
    refine ⟨by simp [isColumnKey, h2], ?_⟩
    cases v <;> simp at h
    rw [← h]
  · left
    refine ⟨by simp [isColumnKey, h3], ?_⟩
    cases v <;> simp at h
    exact parseIndex_columns _ _ _ h
  · right
    refine ⟨by simp [isColumnKey, h1, h2, h3], ?_⟩
    cases v <;> try (simp at h; done)
    rename_i m
    cases hp : NewColumn.parse m with
    | error e => simp [hp] at h
    | ok c1 =>
      simp only [hp, Except.ok.injEq] at h
      exact ⟨{ c1 with name := k }, ⟨m, c1, rfl, hp, rfl⟩, by rw [← h]⟩

theorem loadEntries_columns (maps : List (String × JVal)) :
    ∀ (t t1 : table), loadEntries t maps = .ok t1 →
      ∃ new : List column, t1.columns = t.columns ++ new ∧
        List.Forall₂ ParsedColumn (maps.filter (fun p => isColumnKey p.1)) new := by
  induction maps with
  | nil =>
    intro t t1 h
    simp only [loadEntries, Except.ok.injEq] at h
    exact ⟨[], by simp [h], by simp⟩
  | cons p maps ih =>
    intro t t1 h
    obtain ⟨k, v⟩ := p
    rw [loadEntries] at h
    cases he : loadEntry t k v with
    | error e => simp [he] at h
    | ok t2 =>
      simp only [he] at h
      obtain ⟨new, hnew, hall⟩ := ih t2 t1 h
      rcases loadEntry_columns t t2 k v he with ⟨hk, hc⟩ | ⟨hk, c, hpc, hc⟩
      · exact ⟨new, by rw [hnew, hc], by simpa [List.filter_cons, hk] using hall⟩
      · refine ⟨c :: new, by rw [hnew, hc]; simp, ?_⟩
        simp only [List.filter_cons, hk, if_true]
        exact List.Forall₂.cons hpc hall

theorem loadTable_ok (sortSlice : (column → column → Bool) → List column → List column)
    (k : String) (v : JVal) (t : table) (h : loadTable sortSlice k v = .ok t) :
    ∃ maps t0, v = JVal.obj maps ∧ loadEntries (NewTable k) maps = .ok t0 ∧
      t.columns = sortSlice snLess t0.columns := by
  unfold loadTable at h
  cases v <;> try (simp at h; done)
  rename_i maps
  cases he : loadEntries (NewTable k) maps with
  | error e => simp [he] at h
  | ok t0 =>
    simp only [he, Except.ok.injEq] at h
    exact ⟨maps, t0, rfl, he, by rw [← h]⟩

/-- The columns of a loaded table: the parsed columns of the document, rearranged by
`sort.Slice`. -/
theorem loadTable_columns (sortSlice : (column → column → Bool) → List column → List column)
    (k : String) (maps : List (String × JVal)) (t : table)
    (h : loadTable sortSlice k (JVal.obj maps) = .ok t) :
    ∃ parsed : List column,
      List.Forall₂ ParsedColumn (maps.filter (fun p => isColumnKey p.1)) parsed ∧
      t.columns = sortSlice snLess parsed := by
  obtain ⟨maps1, t0, hv, he, hc⟩ := loadTable_ok sortSlice k _ t h
  cases hv
  obtain ⟨new, hnew, hall⟩ := loadEntries_columns _ _ _ he
  refine ⟨new, hall, ?_⟩
  rw [hc, hnew]
  simp [NewTable]

theorem parse_sType_of_no_type (m : List (String × JVal)) :
    ∀ (c0 c : column), (∀ v, (TYPE, v) ∉ m) → c0.parse m = .ok c → c.sType = c0.sType := by
  induction m with
  | nil => intro c0 c _ h; simp only [column.parse, Except.ok.injEq] at h; rw [h]
  | cons p m ih =>
    intro c0 c hno h
    obtain ⟨k, v⟩ := p
    obtain ⟨c1, hc1, hc⟩ := parse_cons_ok c0 c k v m h
    have hk : k ≠ TYPE := fun hk => hno v (by simp [hk])
    rw [ih c1 c (fun u hu => hno u (List.mem_cons_of_mem _ hu)) hc,
      (parseEntry_sType c0 k v c1 hc1).2 hk]

theorem parse_error_eq (m : List (String × JVal)) (c : column) (e : Failure)
    (h : c.parse m = .error e) : e = Failure.ERR_PARSE_FAILED := by
  cases hb : m.any (fun p => badEntry p.1 p.2)
  · obtain ⟨c1, hc1⟩ := parse_ok_of_no_bad m c hb
    rw [hc1] at h
    cases h
  · have := (parse_error_iff m c).2 hb
    rw [this] at h
    cases h
    rfl

/-! ## The default of a parsed column -/

theorem parse_iDefault (m : List (String × JVal)) (c : column)
    (hnd : (m.map Prod.fst).Nodup) (h : NewColumn.parse m = .ok c) :
    (∀ v, (DEFAULT, v) ∈ m → c.iDefault = v) ∧
    ((∀ v, (DEFAULT, v) ∉ m) → c.iDefault = JVal.null) :=
  parse_fieldFrom DEFAULT (fun c => c.iDefault) (fun v a => a = v) parseEntry_iDefault
    m NewColumn c hnd h

theorem defaultClause_of_null (fmtV : JVal → String) (c : column)
    (h : c.iDefault = JVal.null) : defaultClause fmtV c = "" := by
  simp [defaultClause, h]

theorem defaultClause_of_ne_null (fmtV : JVal → String) (c : column)
    (h : c.iDefault ≠ JVal.null) :
    defaultClause fmtV c =
      if c.sType = "char" ∨ c.sType = "varchar" then " DEFAULT ''"
      else " DEFAULT " ++ fmtV c.iDefault := by
  unfold defaultClause
  cases hd : c.iDefault <;> simp_all

theorem pkMarksFrom_getElem?_eq (cs : List column) :
    ∀ (ex : Bool) (i : Nat) (c : column), cs[i]? = some c →
      (pkMarksFrom ex cs)[i]? =
        some (c.isPk && !ex && (cs.take i).all (fun d => !d.isPk)) := by
  induction cs with
  | nil => intro ex i c h; simp at h
  | cons a cs ih =>
    intro ex i c h
    cases i with
    | zero =>
      simp only [List.getElem?_cons_zero, Option.some.injEq] at h
      simp [pkMarksFrom, h]
    | succ i =>
      simp only [List.getElem?_cons_succ] at h
      simp only [pkMarksFrom, List.getElem?_cons_succ, ih (ex || a.isPk) i c h,
        List.take_succ_cons, List.all_cons]
      cases ex <;> cases a.isPk <;> simp

/-! ## Parsing the indexes -/

theorem parseIndexGroup_strings (ss : List String) :
    ∀ idx : index,
      parseIndexGroup idx (ss.map JVal.str) = .ok { columns := idx.columns ++ ss } := by
  induction ss with
  | nil => intro idx; simp [parseIndexGroup]
  | cons s ss ih => intro idx; simp [parseIndexGroup, ih]

theorem parseIndexGroup_error_eq (xs : List JVal) :
    ∀ (idx : index) (e : Failure), parseIndexGroup idx xs = .error e →
      e = Failure.ERR_PARSE_FAILED := by
  induction xs with
  | nil => intro idx e h; simp [parseIndexGroup] at h
  | cons x xs ih =>
    intro idx e h
    cases x <;> simp only [parseIndexGroup] at h <;> first
      | exact ih _ e h
      | (cases h; rfl)

theorem parseIndexGroup_of_not_string (xs : List JVal) :
    ∀ idx : index, (∃ x ∈ xs, ∀ s, x ≠ JVal.str s) →
      parseIndexGroup idx xs = .error Failure.ERR_PARSE_FAILED := by
  induction xs with
  | nil => intro idx h; simp at h
  | cons x xs ih =>
    intro idx h
    cases x <;> simp only [parseIndexGroup]
    case str s =>
      apply ih
      obtain ⟨y, hy, hys⟩ := h
      rcases List.mem_cons.1 hy with h1 | h1
      · exact absurd h1 (hys s)
      · exact ⟨y, h1, hys⟩

theorem parseIndex_error_eq (gs : List JVal) :
    ∀ (t : table) (e : Failure), t.parseIndex gs = .error e → e = Failure.ERR_PARSE_FAILED := by
  induction gs with
  | nil => intro t e h; simp [table.parseIndex] at h
  | cons g gs ih =>
    intro t e h
    cases g <;> simp only [table.parseIndex] at h <;> try (cases h; rfl)
    rename_i xs
    cases hg : parseIndexGroup NewIndex xs with
    | error e1 =>
      simp only [hg] at h
      cases h
      exact parseIndexGroup_error_eq xs _ _ hg
    | ok idx =>
      simp only [hg] at h
      exact ih _ e h

theorem parseIndex_of_bad_group (gs : List JVal) :
    ∀ t : table,
      (∃ g ∈ gs, (∀ xs, g ≠ JVal.arr xs) ∨
        ∃ xs, g = JVal.arr xs ∧ ∃ x ∈ xs, ∀ s, x ≠ JVal.str s) →
      t.parseIndex gs = .error Failure.ERR_PARSE_FAILED := by
  induction gs with
  | nil => intro t h; simp at h
  | cons g gs ih =>
    intro t h
    cases hres : t.parseIndex (g :: gs) with
    | error e => rw [parseIndex_error_eq _ t e hres]
    | ok t1 =>
      exfalso
      obtain ⟨g1, hg1, hbad⟩ := h
      cases g <;> simp only [table.parseIndex] at hres <;> try (cases hres)
      rename_i xs
      cases hg : parseIndexGroup NewIndex xs with
      | error e1 => simp [hg] at hres
      | ok idx =>
        simp only [hg] at hres
        rcases List.mem_cons.1 hg1 with h1 | h1
        · subst h1
          rcases hbad with hb | ⟨ys, hys, hb⟩
          · exact hb xs rfl
          · cases hys
            rw [parseIndexGroup_of_not_string _ _ hb] at hg
            cases hg
        · rw [ih _ ⟨g1, h1, hbad⟩] at hres
          cases hres

theorem parseIndex_strings (groups : List (List String)) :
    ∀ t : table,
      t.parseIndex (groups.map (fun ss => JVal.arr (ss.map JVal.str))) =
        .ok { t with indexs := t.indexs ++ groups.map index.mk } := by
  induction groups with
  | nil => intro t; simp [table.parseIndex]
  | cons ss groups ih =>
    intro t
    simp [table.parseIndex, parseIndexGroup_strings, ih, NewIndex]

/-! ## Columns that differ in their size only -/

theorem columnDef_sameButSize (fmtV : JVal → String) (c1 c2 : column)
    (h : SameButSize c1 c2) : columnDef fmtV c1 = columnDef fmtV c2 := by
  obtain ⟨h1, h2, h3, h4, h5, h6, h7, h8, h9⟩ := h
  have ht : columnType c1 = columnType c2 := by
    unfold columnType
    by_cases hc : c1.sType = "char" ∨ c1.sType = "varchar"
    · have hc2 : c2.sType = "char" ∨ c2.sType = "varchar" := by rw [← h3]; exact hc
      rw [if_pos hc, if_pos hc2, h1, h3, h9 hc]
    · have hc2 : ¬ (c2.sType = "char" ∨ c2.sType = "varchar") := by rw [← h3]; exact hc
      rw [if_neg hc, if_neg hc2, h1, h3]
  have hn : nullClause c1 = nullClause c2 := by simp only [nullClause, h6]
  have hd : defaultClause fmtV c1 = defaultClause fmtV c2 := by
    simp only [defaultClause, h3, h4]
  have hm : commentClause c1 = commentClause c2 := by simp only [commentClause, h2]
  rw [columnDef, columnDef, ht, hn, hd, hm]

theorem pkStep_sameButSize (pk : String) (c1 c2 : column) (h : SameButSize c1 c2) :
    pkStep pk c1 = pkStep pk c2 := by
  obtain ⟨h1, h2, h3, h4, h5, h6, h7, h8, h9⟩ := h
  simp only [pkStep, h1, h5]

theorem generateCreateSQLLoop_sameButSize (fmtV : JVal → String) (n : Nat)
    (cs1 cs2 : List column) (h : List.Forall₂ SameButSize cs1 cs2) :
    ∀ (i : Nat) (st : String × String),
      generateCreateSQLLoop fmtV n i cs1 st = generateCreateSQLLoop fmtV n i cs2 st := by
  induction h with
  | nil => intro i st; rfl
  | cons hc _ ih =>
    intro i st
    obtain ⟨sql, pk⟩ := st
    simp only [generateCreateSQLLoop, generateCreateSQLBody_eq, columnDef_sameButSize fmtV _ _ hc,
      pkStep_sameButSize pk _ _ hc, ih]

theorem foldl_sameButSize {σ : Type} (f : σ → column → σ) (cs1 cs2 : List column)
    (h : List.Forall₂ SameButSize cs1 cs2)
    (hf : ∀ s c1 c2, SameButSize c1 c2 → f s c1 = f s c2) :
    ∀ s : σ, cs1.foldl f s = cs2.foldl f s := by
  induction h with
  | nil => intro s; rfl
  | cons hc _ ih => intro s; simp only [List.foldl_cons, hf s _ _ hc, ih]

/-! ## The visiting order of an attribute mapping -/

theorem fieldFrom_unique {α : Type} (key : String) (f : column → α) (R : JVal → α → Prop)
    (hR : ∀ v a b, R v a → R v b → a = b)
    (c0 c1 c2 : column) (m1 m2 : List (String × JVal))
    (hmem : ∀ p, p ∈ m1 ↔ p ∈ m2)
    (h1 : FieldFrom key f R c0 m1 c1) (h2 : FieldFrom key f R c0 m2 c2) : f c1 = f c2 := by
  by_cases hex : ∃ v, (key, v) ∈ m1
  · obtain ⟨v, hv⟩ := hex
    exact hR v _ _ (h1.1 v hv) (h2.1 v ((hmem _).1 hv))
  · have hno1 : ∀ v, (key, v) ∉ m1 := fun v hv => hex ⟨v, hv⟩
    have hno2 : ∀ v, (key, v) ∉ m2 := fun v hv => hex ⟨v, (hmem _).2 hv⟩
    rw [h1.2 hno1, h2.2 hno2]

theorem parsedFrom_unique (c0 c1 c2 : column) (m1 m2 : List (String × JVal))
    (hmem : ∀ p, p ∈ m1 ↔ p ∈ m2)
    (h1 : ParsedFrom c0 m1 c1) (h2 : ParsedFrom c0 m2 c2) : c1 = c2 := by
  obtain ⟨n1, a1, b1, d1, e1, f1, g1, i1, j1⟩ := h1
  obtain ⟨n2, a2, b2, d2, e2, f2, g2, i2, j2⟩ := h2
  have hstr : ∀ (v : JVal) (a b : String), v = JVal.str a → v = JVal.str b → a = b := by
    intro v a b ha hb
    rw [ha] at hb
    cases hb
    rfl
  have hbool : ∀ (v : JVal) (a b : Bool), v = JVal.bool a → v = JVal.bool b → a = b := by
    intro v a b ha hb
    rw [ha] at hb
    cases hb
    rfl
  have hnum : ∀ (v : JVal) (a b : Int), (∃ x, v = JVal.num x ∧ a = goInt x) →
      (∃ x, v = JVal.num x ∧ b = goInt x) → a = b := by
    rintro v a b ⟨x, hx, ha⟩ ⟨y, hy, hb⟩
    rw [hx] at hy
    cases hy
    rw [ha, hb]
  have hname : c1.name = c2.name := by rw [n1, n2]
  have hty := fieldFrom_unique TYPE _ _ hstr c0 c1 c2 m1 m2 hmem a1 a2
  have hpk := fieldFrom_unique PK _ _ hbool c0 c1 c2 m1 m2 hmem b1 b2
  have hnull := fieldFrom_unique NULL _ _ hbool c0 c1 c2 m1 m2 hmem d1 d2
  have hdef := fieldFrom_unique DEFAULT _ _ (fun v a b ha hb => by rw [ha, hb])
    c0 c1 c2 m1 m2 hmem e1 e2
  have hmodel := fieldFrom_unique MODEL_NAME _ _ hstr c0 c1 c2 m1 m2 hmem f1 f2
  have hcomment := fieldFrom_unique COMMENT _ _ hstr c0 c1 c2 m1 m2 hmem g1 g2
  have hsn := fieldFrom_unique SN _ _ hnum c0 c1 c2 m1 m2 hmem i1 i2
  have hsize := fieldFrom_unique SIZE _ _ hnum c0 c1 c2 m1 m2 hmem j1 j2
  cases c1
  cases c2
  simp only at hname hty hpk hnull hdef hmodel hcomment hsn hsize
  simp only [column.mk.injEq]
  exact ⟨hname, hcomment, hty, hsize, hdef, hpk, hnull, hmodel, hsn⟩

theorem parse_perm (c0 : column) (m1 m2 : List (String × JVal)) (hperm : m1.Perm m2)
    (hnd : (m1.map Prod.fst).Nodup) : c0.parse m1 = c0.parse m2 := by
  have hmem : ∀ p, p ∈ m1 ↔ p ∈ m2 := fun p => hperm.mem_iff
  have hnd2 : (m2.map Prod.fst).Nodup := (hperm.map Prod.fst).nodup_iff.1 hnd
  have hany : m1.any (fun p => badEntry p.1 p.2) = m2.any (fun p => badEntry p.1 p.2) := by
    rw [Bool.eq_iff_iff, List.any_eq_true, List.any_eq_true]
    constructor
    · rintro ⟨p, hp, hb⟩; exact ⟨p, (hmem p).1 hp, hb⟩
    · rintro ⟨p, hp, hb⟩; exact ⟨p, (hmem p).2 hp, hb⟩
  cases hb : m1.any (fun p => badEntry p.1 p.2)
  · obtain ⟨c1, hc1⟩ := parse_ok_of_no_bad m1 c0 hb
    obtain ⟨c2, hc2⟩ := parse_ok_of_no_bad m2 c0 (by rw [← hany]; exact hb)
    rw [hc1, hc2, parsedFrom_unique c0 c1 c2 m1 m2 hmem
      (parse_parsedFrom c0 c1 m1 hnd hc1) (parse_parsedFrom c0 c2 m2 hnd2 hc2)]
  · rw [(parse_error_iff m1 c0).2 hb, (parse_error_iff m2 c0).2 (by rw [← hany]; exact hb)]

theorem parseEntry_unrecognised (c : column) (k : String) (v : JVal)
    (h : isRecognisedKey k = false) : c.parseEntry k v = .ok c := by
  simp only [isRecognisedKey, Bool.or_eq_false_iff, decide_eq_false_iff_not] at h
  obtain ⟨⟨⟨⟨⟨⟨⟨h1, h2⟩, h3⟩, h4⟩, h5⟩, h6⟩, h7⟩, h8⟩ := h
  simp only [column.parseEntry, h1, h2, h3, h4, h5, h6, h7, h8, if_false]

theorem parse_filter_recognised (m : List (String × JVal)) :
    ∀ c0 : column, c0.parse (m.filter (fun p => isRecognisedKey p.1)) = c0.parse m := by
  induction m with
  | nil => intro c0; rfl
  | cons p m ih =>
    intro c0
    obtain ⟨k, v⟩ := p
    cases hk : isRecognisedKey k
    · rw [List.filter_cons_of_neg (by simp [hk]), ih, column.parse,
        parseEntry_unrecognised c0 k v hk]
    · rw [List.filter_cons_of_pos (by simp [hk]), column.parse, column.parse]
      cases c0.parseEntry k v with
      | error e => rfl
      | ok c1 => exact ih c1

/-! ## The type table and the number conversion, against the specification -/

theorem typeMapLookup_isSome_iff (s : String) :
    (typeMapLookup s).isSome = true ↔ s ∈ storageTypeNames := by
  unfold typeMapLookup DATA2MODEL_TYPE_MAP storageTypeNames
  simp only [List.lookup]
  repeat' split
  all_goals simp_all

theorem typeMapGet_eq_scalarTypeOf (s : String) : typeMapGet s = scalarTypeOf s := by
  unfold scalarTypeOf
  split_ifs with h1 h2 h3 h4 h5 h6 h7 h8 h9 h10
  · rw [h1]; rfl
  · rw [h2]; rfl
  · rw [h3]; rfl
  · rw [h4]; rfl
  · rw [h5]; rfl
  · rw [h6]; rfl
  · rw [h7]; rfl
  · rw [h8]; rfl
  · rw [h9]; rfl
  · rw [h10]; rfl
  · have hb : ∀ t : String, ¬ s = t → (s == t) = false := fun t h => by simpa using h
    simp only [typeMapGet, typeMapLookup, DATA2MODEL_TYPE_MAP, List.lookup, hb _ h1, hb _ h2,
      hb _ h3, hb _ h4, hb _ h5, hb _ h6, hb _ h7, hb _ h8, hb _ h9, hb _ h10]
    rfl

theorem floor_abs_eq (q : ℚ) : ⌊|q|⌋ = Int.ofNat (q.num.natAbs / q.den) := by
  rw [Rat.abs_def, Rat.divInt_eq_div, Int.cast_natCast]
  exact Rat.floor_natCast_div_natCast q.num.natAbs q.den

theorem goInt_eq_int64Of (x : float64) : goInt x = int64Of x := by
  simp only [goInt, int64Of, wholePart, floor_abs_eq]
  norm_num

theorem badEntry_iff_rejected (k : String) (v : JVal) :
    badEntry k v = true ↔ RejectedAttribute k v := by
  rw [badEntry_iff, RejectedAttribute]
  have h1 : v.isKnownType = false ↔ ¬ ∃ s, s ∈ storageTypeNames ∧ v = JVal.str s := by
    cases v <;> simp [JVal.isKnownType]
    rename_i s
    rw [← typeMapLookup_isSome_iff]
    cases typeMapLookup s <;> simp
  have h2 : v.isBool = false ↔ ¬ ∃ b, v = JVal.bool b := by
    cases v <;> simp [JVal.isBool]
  have h3 : v.isString = false ↔ ¬ ∃ s, v = JVal.str s := by
    cases v <;> simp [JVal.isString]
  have h4 : v.isNumber = false ↔ ¬ ∃ x, v = JVal.num x := by
    cases v <;> simp [JVal.isNumber]
  rw [h1, h2, h3, h4]
  rfl

theorem fieldFrom_mono {α : Type} (key : String) (f : column → α)
    (R S : JVal → α → Prop) (hRS : ∀ v a, R v a → S v a)
    (c0 c : column) (m : List (String × JVal)) (h : FieldFrom key f R c0 m c) :
    FieldFrom key f S c0 m c :=
  ⟨fun v hv => hRS v _ (h.1 v hv), h.2⟩

theorem parse_fieldsFrom (c0 c : column) (m : List (String × JVal))
    (hnd : (m.map Prod.fst).Nodup) (h : c0.parse m = .ok c) : FieldsFrom c0 m c := by
  obtain ⟨h0, h1, h2, h3, h4, h5, h6, h7, h8⟩ := parse_parsedFrom c0 c m hnd h
  have hnum : ∀ (v : JVal) (a : Int), (∃ x, v = JVal.num x ∧ a = goInt x) →
      ∃ x, v = JVal.num x ∧ a = int64Of x := by
    rintro v a ⟨x, hx, ha⟩
    exact ⟨x, hx, by rw [ha, goInt_eq_int64Of]⟩
  exact ⟨h0, h1, h2, h3, h4, h5, h6, fieldFrom_mono _ _ _ _ hnum _ _ _ h7,
    fieldFrom_mono _ _ _ _ hnum _ _ _ h8⟩

/-! ## `sort.Slice` where `breakPatterns_func` is not reached -/

theorem pdqsortCore_eq (breakPatterns : List column → Nat → Nat → List column)
    (less : column → column → Bool) :
    ∀ (fuel : Nat) (data : List column) (a b limit : Nat) (wb wp : Bool) (r : List column),
      pdqsortCore less fuel data a b limit wb wp = some r →
      pdqsort_func breakPatterns less fuel data a b limit wb wp = r := by
  intro fuel
  induction fuel with
  | zero =>
    intro data a b limit wb wp r h
    simp only [pdqsortCore, Option.some.injEq] at h
    simp only [pdqsort_func, h]
  | succ fuel ih =>
    intro data a b limit wb wp r h
    unfold pdqsortCore at h
    unfold pdqsort_func
    by_cases h12 : b - a ≤ 12
    · simp only [h12, if_true, Option.some.injEq] at h
      simp only [h12, if_true, h]
    · by_cases hl : limit = 0
      · simp only [h12, if_false, hl, if_true, Option.some.injEq] at h
        simp only [h12, if_false, hl, if_true, h]
      · cases wb with
        | false => simp [h12, hl] at h
        | true =>
          simp only [h12, hl, if_false, Bool.true_eq_false] at h ⊢
          split_ifs at h ⊢ <;> first
            | (simpa using h)
            | (exact ih _ _ _ _ _ _ _ h)
            | (revert h
               split
               · intro h; cases h
               · rename_i d hd
                 intro h
                 rw [ih _ _ _ _ _ _ _ hd]
                 exact ih _ _ _ _ _ _ _ h)

theorem pdqSlice_eq_of_core (breakPatterns : List column → Nat → Nat → List column)
    (less : column → column → Bool) (x r : List column)
    (h : pdqsortCore less (x.length + 1) x 0 x.length (bitsLen x.length) true true = some r) :
    pdqSlice breakPatterns less x = r :=
  pdqsortCore_eq breakPatterns less _ _ _ _ _ _ _ r h

theorem loadTable_of_loadEntries
    (sortSlice : (column → column → Bool) → List column → List column)
    (k : String) (maps : List (String × JVal)) (t0 : table)
    (h : loadEntries (NewTable k) maps = .ok t0) :
    loadTable sortSlice k (JVal.obj maps) =
      .ok { t0 with columns := sortSlice snLess t0.columns } := by
  simp only [loadTable, h]

set_option maxRecDepth 100000 in
theorem tieDoc13_sorted :
    ∃ (t0 : table) (r : List column),
      loadEntries (NewTable "t") tieDoc13 = .ok t0 ∧
      pdqsortCore snLess (t0.columns.length + 1) t0.columns 0 t0.columns.length
        (bitsLen t0.columns.length) true true = some r ∧
      r.map (fun c => (c.name, c.sn)) =
        [("b", 1), ("c", 2), ("d", 3), ("g", 4), ("e", 9), ("a", 9), ("f", 10), ("h", 11),
         ("i", 12), ("j", 13), ("k", 14), ("l", 15), ("m", 16)] :=
  ⟨_, _, rfl, rfl, rfl⟩

/-! ## Statement texts, column by column -/

theorem createClauses_length (fmtV : JVal → String) (cols : List column) :
    (createClauses fmtV cols).length = cols.length := by
  simp [createClauses]

theorem createClauses_getElem? (fmtV : JVal → String) (cols : List column) (i : Nat)
    (c : column) (h : cols[i]? = some c) :
    (createClauses fmtV cols)[i]? =
      some (columnDef fmtV c ++
        (if i + 1 = cols.length ∧ ∀ d ∈ cols, d.isPk = false then "\n" else ",\n")) := by
  simp [createClauses, List.enum, List.getElem?_enumFrom, h]

theorem addStmts_length (fmtV : JVal → String) (t : table) :
    (addStmts fmtV t).length = t.columns.length := by
  simp [addStmts]

theorem addStmts_getElem?_zero (fmtV : JVal → String) (t : table) (c : column)
    (h : t.columns[0]? = some c) :
    (addStmts fmtV t)[0]? = some (addStmt fmtV t c "") := by
  simp [addStmts, List.getElem?_zipWith, h]

theorem addStmts_getElem?_succ (fmtV : JVal → String) (t : table) (i : Nat) (p c : column)
    (hp : t.columns[i]? = some p) (h : t.columns[i + 1]? = some c) :
    (addStmts fmtV t)[i + 1]? = some (addStmt fmtV t c p.name) := by
  simp [addStmts, List.getElem?_zipWith, h, hp]

theorem columnDef_eq (fmtV : JVal → String) (c : column) :
    columnDef fmtV c =
      columnType c ++ nullClause c ++
        (if c.iDefault.notNil = true then
          (if c.sType = "char" ∨ c.sType = "varchar" then " DEFAULT ''"
           else " DEFAULT " ++ fmtV c.iDefault)
         else "") ++ " COMMENT '" ++ c.comment ++ "'" := by
  rw [columnDef, defaultClause_eq, commentClause]
  simp [or_comm, String.append_assoc]

/-! ## The claims -/

/-- C1: in the model file at most one field line carries `;pk`, and the line that
carries it is the one of the first column, in column order, with `isPk` set; every
other column, a later `isPk` column included, is written without `;pk`. -/
theorem outputModelCode_single_pk (t : table) :
    ∃ marks : List Bool,
      marks.length = t.columns.length ∧
      t.outputModelCode =
        modelHead t ++ sconcat (List.zipWith modelField t.columns marks) ++ "\x7d\n" ∧
      marks.count true ≤ 1 ∧
      ∀ i : Nat, marks[i]? = some true ↔
        ∃ c : column, t.columns[i]? = some c ∧ c.isPk = true ∧
          ∀ j : Nat, j < i → ∀ d : column, t.columns[j]? = some d → d.isPk = false := by
  refine ⟨pkMarksFrom false t.columns, pkMarksFrom_length _ _, outputModelCode_eq t,
    pkMarksFrom_count_le _ _, ?_⟩
  intro i
  rw [pkMarksFrom_getElem?]
  simp

/-- C2: the Create statement has a `PRIMARY KEY(...)` clause right after the column
list exactly when some column has `isPk` set, and the clause lists the names of all
`isPk` columns, each between backticks, in column order, joined by commas. -/
theorem generateCreateSQL_primary_key (fmtV : JVal → String) (t : table) :
    t.generateCreateSQL fmtV =
      createHead t ++ sconcat (createClauses fmtV t.columns) ++
        (if ∃ c ∈ t.columns, c.isPk = true then
          "PRIMARY KEY(" ++
            joinWith "," ((t.columns.filter (fun c => c.isPk)).map (fun c => "`" ++ c.name ++ "`"))
            ++ ")\n"
         else "") ++
        createTail t := by
  rw [generateCreateSQL_eq]
  simp [primaryKeyClause, pkNames]

/-- C3: in the Create statement the clause of column `i` ends with its comment and a
newline, without a comma, exactly when `i` is the last column and no column of the
table has `isPk` set; every other column clause ends with a comma before the newline. -/
theorem generateCreateSQL_trailing_comma (fmtV : JVal → String) (t : table) :
    ∃ clauses : List String,
      clauses.length = t.columns.length ∧
      t.generateCreateSQL fmtV =
        createHead t ++ sconcat clauses ++ primaryKeyClause t.columns ++ createTail t ∧
      ∀ (i : Nat) (c : column), t.columns[i]? = some c →
        clauses[i]? =
          some (columnType c ++ nullClause c ++ defaultClause fmtV c ++
            " COMMENT '" ++ c.comment ++ "'" ++
            (if i + 1 = t.columns.length ∧ ∀ d ∈ t.columns, d.isPk = false then "\n"
             else ",\n")) := by
  refine ⟨createClauses fmtV t.columns, createClauses_length _ _, generateCreateSQL_eq fmtV t, ?_⟩
  intro i c h
  rw [createClauses_getElem? fmtV _ i c h]
  simp [columnDef, commentClause, String.append_assoc]

/-- Where the default stands in the text of a column, for any way `fmtV` of printing a
value: after the nullability and before the comment, in the Create, Alter and Add
statements alike. -/
theorem default_clause_position (fmtV : JVal → String) (t : table) :
    ∃ cr al ad : List String,
      t.generateCreateSQL fmtV =
        createHead t ++ sconcat cr ++ primaryKeyClause t.columns ++ createTail t ∧
      t.generateAlterSQL fmtV = scriptHead t ++ sconcat al ++ "\n" ∧
      t.generateAddSQL fmtV = scriptHead t ++ sconcat ad ++ "\n" ∧
      cr.length = t.columns.length ∧ al.length = t.columns.length ∧
      ad.length = t.columns.length ∧
      ∀ (i : Nat) (c : column), t.columns[i]? = some c →
        ∃ dflt : String,
          dflt =
            (if c.iDefault.notNil = true then
              (if c.sType = "char" ∨ c.sType = "varchar" then " DEFAULT ''"
               else " DEFAULT " ++ fmtV c.iDefault)
             else "") ∧
          (∃ e, (e = "\n" ∨ e = ",\n") ∧
            cr[i]? = some (columnType c ++ nullClause c ++ dflt ++
              " COMMENT '" ++ c.comment ++ "'" ++ e)) ∧
          al[i]? = some ("ALTER TABLE `" ++ t.name ++ "` CHANGE `" ++ c.name ++ "` " ++
              columnType c ++ nullClause c ++ dflt ++ " COMMENT '" ++ c.comment ++ "'" ++ ";\n") ∧
          (∃ e, (e = ";\n" ∨ ∃ p, e = " AFTER `" ++ p ++ "`;\n") ∧
            ad[i]? = some ("ALTER TABLE `" ++ t.name ++ "` ADD " ++
              columnType c ++ nullClause c ++ dflt ++ " COMMENT '" ++ c.comment ++ "'" ++ e)) := by
  refine ⟨createClauses fmtV t.columns, t.columns.map (alterStmt fmtV t), addStmts fmtV t,
    generateCreateSQL_eq fmtV t, generateAlterSQL_eq fmtV t, generateAddSQL_eq fmtV t,
    createClauses_length _ _, by simp, addStmts_length _ _, ?_⟩
  intro i c h
  refine ⟨_, rfl, ?_, ?_, ?_⟩
  · refine ⟨(if i + 1 = t.columns.length ∧ ∀ d ∈ t.columns, d.isPk = false then "\n"
        else ",\n"), ?_, ?_⟩
    · split_ifs <;> simp
    · rw [createClauses_getElem? fmtV _ i c h, columnDef_eq]
  · simp [List.getElem?_map, h, alterStmt, columnDef_eq, String.append_assoc]
  · cases i with
    | zero =>
      refine ⟨";\n", Or.inl rfl, ?_⟩
      rw [addStmts_getElem?_zero fmtV t c h, addStmt, columnDef_eq]
      simp [String.append_assoc]
    | succ i =>
      have hlt : i < t.columns.length := by
        have := (List.getElem?_eq_some_iff.1 h).1
        omega
      have hp : t.columns[i]? = some (t.columns[i]) := List.getElem?_eq_getElem hlt
      refine ⟨(if (t.columns[i]).name = "" then ";\n"
          else " AFTER `" ++ (t.columns[i]).name ++ "`;\n"), ?_, ?_⟩
      · split_ifs
        · exact Or.inl rfl
        · exact Or.inr ⟨_, rfl⟩
      · rw [addStmts_getElem?_succ fmtV t i _ c hp h, addStmt, columnDef_eq]
        simp [String.append_assoc]

/-- The verb `%v` prints a whole number below 1000000 in its decimal digits, after a
minus sign when the sign bit is set. -/
theorem goFmtV_whole (fmtOther : JVal → String) (n : Nat) (h : n < 1000000) :
    goFmtV fmtOther (JVal.num { neg := false, mag := n }) = Nat.repr n ∧
    goFmtV fmtOther (JVal.num { neg := true, mag := n }) = "-" ++ Nat.repr n := by
  have h53 : n < 9007199254740992 := by omega
  simp [goFmtV, fmtWhole, h, h53]

set_option maxRecDepth 100000 in
/-- Counterexample to C4: the `int` column `n` has the default 1000000; the Create, Alter
and Add statements write it as `DEFAULT 1e+06`, not as the configured value. -/
theorem default_million_not_verbatim :
    ∃ t : table,
      loadEntries (NewTable "t") millionDoc = .ok t ∧
      ∀ fmtOther : JVal → String,
        t.generateCreateSQL (goFmtV fmtOther) =
          "-- --------------------------------------------------\n" ++
          "--  Table Structure for `models.`\n" ++
          "-- --------------------------------------------------\n" ++
          "CREATE TABLE IF NOT EXISTS `t` (\n" ++
          "`n` int NOT NULL DEFAULT 1e+06 COMMENT ''\n" ++
          ") ENGINE=InnoDB COMMENT='' DEFAULT CHARSET=utf8;\n" ++
          "\n" ∧
        t.generateAlterSQL (goFmtV fmtOther) =
          "----------------------------------------------------\n" ++
          "--  `t`\n" ++
          "----------------------------------------------------\n" ++
          "ALTER TABLE `t` CHANGE `n` `n` int NOT NULL DEFAULT 1e+06 COMMENT '';\n" ++
          "\n" ∧
        t.generateAddSQL (goFmtV fmtOther) =
          "----------------------------------------------------\n" ++
          "--  `t`\n" ++
          "----------------------------------------------------\n" ++
          "ALTER TABLE `t` ADD `n` int NOT NULL DEFAULT 1e+06 COMMENT '';\n" ++
          "\n" :=
  ⟨_, rfl, fun _ => ⟨rfl, rfl, rfl⟩⟩

/-- C4, amended: in the Create, Alter and Add statements the text written for a column
has, between the nullability and the comment, ` DEFAULT ''` when the default is present
and the type is `char` or `varchar`, ` DEFAULT ` followed by the default as the verb `%v`
prints it when it is present and the type is any other, and nothing when there is no
default; `%v` prints a string as it is, a boolean as `true` or `false`, a whole number
below 1000000 in its decimal digits, with its sign, and 1000000 as `1e+06`. -/
theorem default_clause_rendering (fmtOther : JVal → String) (t : table) :
    (∃ cr al ad : List String,
      t.generateCreateSQL (goFmtV fmtOther) =
        createHead t ++ sconcat cr ++ primaryKeyClause t.columns ++ createTail t ∧
      t.generateAlterSQL (goFmtV fmtOther) = scriptHead t ++ sconcat al ++ "\n" ∧
      t.generateAddSQL (goFmtV fmtOther) = scriptHead t ++ sconcat ad ++ "\n" ∧
      cr.length = t.columns.length ∧ al.length = t.columns.length ∧
      ad.length = t.columns.length ∧
      ∀ (i : Nat) (c : column), t.columns[i]? = some c →
        ∃ dflt : String,
          dflt =
            (if c.iDefault.notNil = true then
              (if c.sType = "char" ∨ c.sType = "varchar" then " DEFAULT ''"
               else " DEFAULT " ++ goFmtV fmtOther c.iDefault)
             else "") ∧
          (∃ e, (e = "\n" ∨ e = ",\n") ∧
            cr[i]? = some (columnType c ++ nullClause c ++ dflt ++
              " COMMENT '" ++ c.comment ++ "'" ++ e)) ∧
          al[i]? = some ("ALTER TABLE `" ++ t.name ++ "` CHANGE `" ++ c.name ++ "` " ++
              columnType c ++ nullClause c ++ dflt ++ " COMMENT '" ++ c.comment ++ "'" ++ ";\n") ∧
          (∃ e, (e = ";\n" ∨ ∃ p, e = " AFTER `" ++ p ++ "`;\n") ∧
            ad[i]? = some ("ALTER TABLE `" ++ t.name ++ "` ADD " ++
              columnType c ++ nullClause c ++ dflt ++ " COMMENT '" ++ c.comment ++ "'" ++ e))) ∧
    (∀ s : String, goFmtV fmtOther (JVal.str s) = s) ∧
    (∀ b : Bool, goFmtV fmtOther (JVal.bool b) = if b = true then "true" else "false") ∧
    (∀ n : Nat, n < 1000000 →
      goFmtV fmtOther (JVal.num { neg := false, mag := n }) = Nat.repr n ∧
      goFmtV fmtOther (JVal.num { neg := true, mag := n }) = "-" ++ Nat.repr n) ∧
    goFmtV fmtOther (JVal.num 1000000) = "1e+06" :=
  ⟨default_clause_position (goFmtV fmtOther) t, fun _ => rfl, fun _ => rfl,
    fun n h => goFmtV_whole fmtOther n h, rfl⟩

set_option maxRecDepth 100000 in
/-- C5: a table whose first column has the empty name and whose second column is `b`,
as the configuration `{"t": {"": {"type": "int", "sn": 1}, "b": {"type": "int", "sn": 2}}}`
yields it: the statement for `b` stops after the comment, with no `AFTER` clause. -/
theorem generateAddSQL_empty_name_no_after :
    ∃ t : table,
      loadEntries (NewTable "t")
        [("", JVal.obj [("type", JVal.str "int"), ("sn", JVal.num 1)]),
         ("b", JVal.obj [("type", JVal.str "int"), ("sn", JVal.num 2)])] = .ok t ∧
      t.columns.map (fun c => (c.name, c.sn)) = [("", 1), ("b", 2)] ∧
      t.generateAddSQL (fun _ => "") =
        "----------------------------------------------------\n" ++
        "--  `t`\n" ++
        "----------------------------------------------------\n" ++
        "ALTER TABLE `t` ADD `` int NOT NULL COMMENT '';\n" ++
        "ALTER TABLE `t` ADD `b` int NOT NULL COMMENT '';\n" ++
        "\n" :=
  ⟨_, rfl, by decide, by decide⟩

/-- C6: the type-map lookup succeeds exactly on the ten storage type names, matched as
they are written, and gives the scalar type listed for the name; a column whose `type`
attribute is any other string is rejected with the parse error. -/
theorem typeMapLookup_spec (s : String) :
    (∀ ty : String, typeMapLookup s = some ty ↔
      (s = "tinyint unsigned" ∧ ty = "uint8") ∨ (s = "tinyint" ∧ ty = "int8") ∨
      (s = "smallint unsigned" ∧ ty = "uint16") ∨ (s = "smallint" ∧ ty = "int16") ∨
      (s = "int unsigned" ∧ ty = "uint32") ∨ (s = "int" ∧ ty = "int32") ∨
      (s = "bigint unsigned" ∧ ty = "uint64") ∨ (s = "bigint" ∧ ty = "int64") ∨
      (s = "char" ∧ ty = "string") ∨ (s = "varchar" ∧ ty = "string")) ∧
    (typeMapLookup s = none →
      ∀ (c : column) (m : List (String × JVal)), (TYPE, JVal.str s) ∈ m →
        c.parse m = .error Failure.ERR_PARSE_FAILED) ∧
    typeMapLookup "VARCHAR" = none ∧ typeMapLookup " int" = none ∧ typeMapLookup "" = none := by
  refine ⟨?_, ?_, by decide, by decide, by decide⟩
  · intro ty
    unfold typeMapLookup DATA2MODEL_TYPE_MAP
    simp only [List.lookup]
    repeat' split
    all_goals simp_all
    all_goals exact eq_comm
  · intro hs c m hm
    rw [parse_error_iff]
    rw [List.any_eq_true]
    exact ⟨(TYPE, JVal.str s), hm, by simp [badEntry, JVal.isKnownType, hs]⟩

/-- C7: in a loaded table the column sequence is a rearrangement of the parsed columns
of the document, and it is ascending in the sequence number: a column never comes
after one with a greater `sn`. -/
theorem loadTable_columns_sorted
    (sortSlice : (column → column → Bool) → List column → List column)
    (hsort : SortSliceContract sortSlice)
    (k : String) (maps : List (String × JVal)) (t : table)
    (h : loadTable sortSlice k (JVal.obj maps) = .ok t) :
    ∃ parsed : List column,
      List.Forall₂ ParsedColumn (maps.filter (fun p => isColumnKey p.1)) parsed ∧
      t.columns.Perm parsed ∧
      ∀ (i j : Nat) (hij : i < j) (hj : j < t.columns.length),
        (t.columns[i]).sn ≤ (t.columns[j]).sn := by
  obtain ⟨parsed, hall, hc⟩ := loadTable_columns sortSlice k maps t h
  obtain ⟨hperm, hsorted⟩ := hsort snLess snLess_lessOrdering parsed
  refine ⟨parsed, hall, by rw [hc]; exact hperm, ?_⟩
  intro i j hij hj
  rw [← hc] at hsorted
  have := List.pairwise_iff_getElem.1 hsorted i j (by omega) hj hij
  simpa [snLess] using this

set_option maxRecDepth 100000 in
/-- Witness of C7: the specification's example table, with `name` visited before `id`,
loaded with `shellSortSlice`, a sort that meets the contract. -/
theorem loadTable_columns_sorted_witness :
    SortSliceContract shellSortSlice ∧
    ∃ t : table, loadTable shellSortSlice "users" (JVal.obj usersDoc) = .ok t ∧
      ∃ parsed : List column,
        List.Forall₂ ParsedColumn (usersDoc.filter (fun p => isColumnKey p.1)) parsed ∧
        t.columns.Perm parsed ∧
        ∀ (i j : Nat) (hij : i < j) (hj : j < t.columns.length),
          (t.columns[i]).sn ≤ (t.columns[j]).sn :=
  ⟨shellSortSlice_contract, _, rfl,
    loadTable_columns_sorted shellSortSlice shellSortSlice_contract "users" usersDoc _ rfl⟩

/-- Counterexample to C8: thirteen columns, visited from `a` to `m`, of which `a` and `e`
have the sequence number 9; `sort.Slice` leaves `e` before `a`, whatever
`breakPatterns_func` does. -/
theorem loadTable_not_stable :
    tieDoc13.map Prod.fst =
      ["a", "b", "c", "d", "e", "f", "g", "h", "i", "j", "k", "l", "m"] ∧
    ∀ breakPatterns : List column → Nat → Nat → List column,
      ∃ t : table,
        loadTable (pdqSlice breakPatterns) "t" (JVal.obj tieDoc13) = .ok t ∧
        t.columns.map (fun c => (c.name, c.sn)) =
          [("b", 1), ("c", 2), ("d", 3), ("g", 4), ("e", 9), ("a", 9), ("f", 10), ("h", 11),
           ("i", 12), ("j", 13), ("k", 14), ("l", 15), ("m", 16)] := by
  refine ⟨rfl, fun breakPatterns => ?_⟩
  obtain ⟨t0, r, h0, hcore, hr⟩ := tieDoc13_sorted
  refine ⟨_, loadTable_of_loadEntries _ _ _ _ h0, ?_⟩
  simp only [pdqSlice_eq_of_core breakPatterns snLess _ _ hcore]
  exact hr

/-- C8, amended: the columns of a loaded table are ascending in the sequence number, and
the columns with a given sequence number are the parsed columns with that number, in
some order. -/
theorem loadTable_equal_sn_columns
    (sortSlice : (column → column → Bool) → List column → List column)
    (hsort : SortSliceContract sortSlice)
    (k : String) (maps : List (String × JVal)) (t : table)
    (h : loadTable sortSlice k (JVal.obj maps) = .ok t) :
    ∃ parsed : List column,
      List.Forall₂ ParsedColumn (maps.filter (fun p => isColumnKey p.1)) parsed ∧
      t.columns.Pairwise (fun a b => a.sn ≤ b.sn) ∧
      ∀ s : Int, (t.columns.filter (fun c => decide (c.sn = s))).Perm
        (parsed.filter (fun c => decide (c.sn = s))) := by
  obtain ⟨parsed, hall, hc⟩ := loadTable_columns sortSlice k maps t h
  obtain ⟨hperm, hsorted⟩ := hsort snLess snLess_lessOrdering parsed
  rw [← hc] at hperm hsorted
  refine ⟨parsed, hall, ?_, fun s => hperm.filter _⟩
  exact hsorted.imp (fun hab => by simpa [snLess] using hab)

set_option maxRecDepth 100000 in
/-- Witness of C8, amended: the seven-column table loaded with `shellSortSlice`, a sort
that meets the contract. -/
theorem loadTable_equal_sn_columns_witness :
    SortSliceContract shellSortSlice ∧
    ∃ t : table, loadTable shellSortSlice "t" (JVal.obj tieDoc) = .ok t ∧
      ∃ parsed : List column,
        List.Forall₂ ParsedColumn (tieDoc.filter (fun p => isColumnKey p.1)) parsed ∧
        t.columns.Pairwise (fun a b => a.sn ≤ b.sn) ∧
        ∀ s : Int, (t.columns.filter (fun c => decide (c.sn = s))).Perm
          (parsed.filter (fun c => decide (c.sn = s))) :=
  ⟨shellSortSlice_contract, _, rfl,
    loadTable_equal_sn_columns shellSortSlice shellSortSlice_contract "t" tieDoc _ rfl⟩

/-- C9: `column.parse` fails, with the parse error, exactly when some attribute is a
`type` that is not a string of the type map, a `pk` or `null` that is not a boolean, a
`model_name` or `comment` that is not a string, or an `sn` or `size` that is not a
number; otherwise it succeeds, and every recognised field of the column holds its
attribute (any value for `default`, the 64-bit integer of the number for `sn` and
`size`). -/
theorem column_parse_spec (c0 : column) (m : List (String × JVal))
    (hnd : (m.map Prod.fst).Nodup) :
    (c0.parse m = .error Failure.ERR_PARSE_FAILED ↔ ∃ p ∈ m, RejectedAttribute p.1 p.2) ∧
    (∀ e : Failure, c0.parse m = .error e → e = Failure.ERR_PARSE_FAILED) ∧
    ((∀ p ∈ m, ¬ RejectedAttribute p.1 p.2) →
      ∃ c, c0.parse m = .ok c ∧ FieldsFrom c0 m c) := by
  refine ⟨?_, fun e he => parse_error_eq m c0 e he, ?_⟩
  · rw [parse_error_iff, List.any_eq_true]
    constructor
    · rintro ⟨p, hp, hb⟩
      exact ⟨p, hp, (badEntry_iff_rejected p.1 p.2).1 hb⟩
    · rintro ⟨p, hp, hb⟩
      exact ⟨p, hp, (badEntry_iff_rejected p.1 p.2).2 hb⟩
  · intro hgood
    have hany : m.any (fun p => badEntry p.1 p.2) = false := by
      rw [List.any_eq_false]
      intro p hp hb
      exact hgood p hp ((badEntry_iff_rejected p.1 p.2).1 hb)
    obtain ⟨c, hc⟩ := parse_ok_of_no_bad m c0 hany
    exact ⟨c, hc, parse_fieldsFrom c0 c m hnd hc⟩

/-- Witness of C9: a new column parsed from a mapping whose `sn` is 2^63. -/
theorem column_parse_spec_witness :
    (largeSnMap.map Prod.fst).Nodup ∧
    (NewColumn.parse largeSnMap = .error Failure.ERR_PARSE_FAILED ↔
      ∃ p ∈ largeSnMap, RejectedAttribute p.1 p.2) ∧
    (∀ e : Failure, NewColumn.parse largeSnMap = .error e → e = Failure.ERR_PARSE_FAILED) ∧
    ((∀ p ∈ largeSnMap, ¬ RejectedAttribute p.1 p.2) →
      ∃ c, NewColumn.parse largeSnMap = .ok c ∧ FieldsFrom NewColumn largeSnMap c) :=
  ⟨by decide, column_parse_spec NewColumn largeSnMap (by decide)⟩

/-- Counterexample to C10: a mapping without a `type` attribute is accepted, by
`column.parse` and by the table loader, and the column's storage type is the empty
string, which is not in the type map. -/
theorem parse_accepts_missing_type :
    ∃ (c : column) (t : table),
      NewColumn.parse [("sn", JVal.num 1), ("comment", JVal.str "id")] = .ok c ∧
      c.sType = "" ∧ typeMapLookup c.sType = none ∧
      loadEntries (NewTable "users")
        [("id", JVal.obj [("sn", JVal.num 1), ("comment", JVal.str "id")])] = .ok t ∧
      t.columns.map (fun c => (c.name, c.sType)) = [("id", "")] :=
  ⟨_, _, rfl, by decide, by decide, rfl, by decide⟩

/-- C10, amended: a column that `column.parse` accepts from a mapping with a `type`
attribute has a storage type of the type map; accepted from a mapping without one, it
has the empty storage type. -/
theorem parse_sType_known_or_unset (m : List (String × JVal)) (c : column)
    (h : NewColumn.parse m = .ok c) :
    ((∃ v, (TYPE, v) ∈ m) → (typeMapLookup c.sType).isSome = true) ∧
    ((∀ v, (TYPE, v) ∉ m) → c.sType = "") := by
  constructor
  · rintro ⟨v, hv⟩
    rcases parse_sType_known m NewColumn c h with hk | ⟨_, hno⟩
    · exact hk
    · exact absurd hv (hno v)
  · intro hno
    rw [parse_sType_of_no_type m NewColumn c hno h]
    rfl

/-- Witness of C10, amended: a mapping whose `type` is `bigint`. -/
theorem parse_sType_known_or_unset_witness :
    ∃ c : column,
      NewColumn.parse [("type", JVal.str "bigint"), ("sn", JVal.num 1)] = .ok c ∧
      ((∃ v, (TYPE, v) ∈ [("type", JVal.str "bigint"), ("sn", JVal.num 1)]) →
        (typeMapLookup c.sType).isSome = true) ∧
      ((∀ v, (TYPE, v) ∉ [("type", JVal.str "bigint"), ("sn", JVal.num 1)]) → c.sType = "") :=
  ⟨_, rfl, parse_sType_known_or_unset _ _ rfl⟩

set_option maxRecDepth 100000 in
/-- Counterexample to C11: the attribute mapping of the column `a` has a `default` key,
whose value is `null`; the column is accepted and its clause in the Create statement has
no DEFAULT clause. -/
theorem generateCreateSQL_null_default :
    ∃ t : table,
      loadEntries (NewTable "t") nullDefaultDoc = .ok t ∧
      t.generateCreateSQL (fun _ => "V") =
        "-- --------------------------------------------------\n" ++
        "--  Table Structure for `models.`\n" ++
        "-- --------------------------------------------------\n" ++
        "CREATE TABLE IF NOT EXISTS `t` (\n" ++
        "`a` int NOT NULL COMMENT ''\n" ++
        ") ENGINE=InnoDB COMMENT='' DEFAULT CHARSET=utf8;\n" ++
        "\n" :=
  ⟨_, rfl, by decide⟩

/-- C11, amended: for a column parsed from an attribute mapping, its clause in the Create
statement has a DEFAULT clause, between the nullability and the comment, when the mapping
has a `default` attribute that is not `null`, and has none when the mapping has no
`default` attribute or a `null` one. -/
theorem generateCreateSQL_default_presence (fmtV : JVal → String) (t : table) (i : Nat)
    (k : String) (m : List (String × JVal)) (c0 : column)
    (hnd : (m.map Prod.fst).Nodup) (hparse : NewColumn.parse m = .ok c0)
    (hcol : t.columns[i]? = some { c0 with name := k }) :
    ∃ clauses : List String,
      t.generateCreateSQL fmtV =
        createHead t ++ sconcat clauses ++ primaryKeyClause t.columns ++ createTail t ∧
      ∃ dflt e : String,
        clauses[i]? =
          some (columnType { c0 with name := k } ++ nullClause c0 ++ dflt ++
            " COMMENT '" ++ c0.comment ++ "'" ++ e) ∧
        (e = "\n" ∨ e = ",\n") ∧
        (∀ v, (DEFAULT, v) ∈ m → v ≠ JVal.null →
          dflt = if c0.sType = "char" ∨ c0.sType = "varchar" then " DEFAULT ''"
                 else " DEFAULT " ++ fmtV v) ∧
        ((∀ v, (DEFAULT, v) ∈ m → v = JVal.null) → dflt = "") := by
  obtain ⟨hin, hout⟩ := parse_iDefault m c0 hnd hparse
  refine ⟨createClauses fmtV t.columns, generateCreateSQL_eq fmtV t,
    defaultClause fmtV c0,
    (if i + 1 = t.columns.length ∧ ∀ d ∈ t.columns, d.isPk = false then "\n" else ",\n"),
    ?_, ?_, ?_, ?_⟩
  · rw [createClauses_getElem? fmtV _ i _ hcol]
    simp [columnDef, commentClause, nullClause, defaultClause, String.append_assoc]
  · split_ifs <;> simp
  · intro v hv hne
    have hd : c0.iDefault = v := hin v hv
    rw [defaultClause_of_ne_null fmtV c0 (by rw [hd]; exact hne), hd]
  · intro hnull
    apply defaultClause_of_null
    by_cases hex : ∃ v, (DEFAULT, v) ∈ m
    · obtain ⟨v, hv⟩ := hex
      rw [hin v hv]
      exact hnull v hv
    · exact hout (fun v hv => hex ⟨v, hv⟩)

/-- Witness of C11, amended: the column `a` of a one-column table, parsed from a mapping
whose `default` is the number 0. -/
theorem generateCreateSQL_default_presence_witness :
    ∃ clauses : List String,
      zeroDefaultTable.generateCreateSQL (fun _ => "0") =
        createHead zeroDefaultTable ++ sconcat clauses ++
          primaryKeyClause zeroDefaultTable.columns ++ createTail zeroDefaultTable ∧
      ∃ dflt e : String,
        clauses[0]? =
          some (columnType { zeroDefaultColumn with name := "a" } ++
            nullClause zeroDefaultColumn ++ dflt ++
            " COMMENT '" ++ zeroDefaultColumn.comment ++ "'" ++ e) ∧
        (e = "\n" ∨ e = ",\n") ∧
        (∀ v, (DEFAULT, v) ∈ zeroDefaultMap → v ≠ JVal.null →
          dflt = if zeroDefaultColumn.sType = "char" ∨ zeroDefaultColumn.sType = "varchar"
                 then " DEFAULT ''"
                 else " DEFAULT " ++ (fun _ => "0") v) ∧
        ((∀ v, (DEFAULT, v) ∈ zeroDefaultMap → v = JVal.null) → dflt = "") :=
  generateCreateSQL_default_presence (fun _ => "0") zeroDefaultTable 0 "a" zeroDefaultMap
    zeroDefaultColumn (by decide) rfl rfl

/-- C12: the Create statement is followed by one `CREATE INDEX` statement for each index
of the table, in the order of the indexes and by nothing else but the closing empty line:
the index is named by the table name followed by `_` and the column, for every column of
the index in order, it is on the table, and it lists the columns between backticks, joined
by a comma and a blank; a table without an index gets no such statement. -/
theorem generateCreateSQL_indexes (fmtV : JVal → String) (t : table) :
    t.generateCreateSQL fmtV =
      createHead t ++ sconcat (createClauses fmtV t.columns) ++ primaryKeyClause t.columns ++
        ") ENGINE=InnoDB COMMENT='" ++ t.comment ++ "' DEFAULT CHARSET=utf8;\n" ++
        sconcat (t.indexs.map (fun idx =>
          "CREATE INDEX `" ++ (t.name ++ sconcat (idx.columns.map (fun c => "_" ++ c))) ++
            "` ON `" ++ t.name ++ "` (" ++
            joinWith ", " (idx.columns.map (fun c => "`" ++ c ++ "`")) ++ ");\n")) ++
        "\n" ∧
    (t.indexs = [] →
      t.generateCreateSQL fmtV =
        createHead t ++ sconcat (createClauses fmtV t.columns) ++ primaryKeyClause t.columns ++
          ") ENGINE=InnoDB COMMENT='" ++ t.comment ++ "' DEFAULT CHARSET=utf8;\n" ++ "\n") := by
  have hstmt : ∀ idx : index, createIndexStmt t idx =
      "CREATE INDEX `" ++ (t.name ++ sconcat (idx.columns.map (fun c => "_" ++ c))) ++
        "` ON `" ++ t.name ++ "` (" ++
        joinWith ", " (idx.columns.map (fun c => "`" ++ c ++ "`")) ++ ");\n" := by
    intro idx
    apply String.ext
    simp [createIndexStmt, String.data_append]
  have hfun := funext hstmt
  constructor
  · rw [generateCreateSQL_eq, createTail, hfun]
    apply String.ext
    simp [String.data_append]
  · intro h
    rw [generateCreateSQL_eq, createTail, h]
    apply String.ext
    simp [sconcat, String.data_append]

/-- C13: the Alter script is a three-line header that names the table, then one
`ALTER TABLE ... CHANGE` statement for each column, in column order, then an empty line;
the statement of a column is made of the table name and of that column alone. -/
theorem generateAlterSQL_statements (fmtV : JVal → String) (t : table) :
    t.generateAlterSQL fmtV =
      "----------------------------------------------------\n" ++
      "--  `" ++ t.name ++ "`\n" ++
      "----------------------------------------------------\n" ++
      sconcat (t.columns.map (fun c =>
        "ALTER TABLE `" ++ t.name ++ "` CHANGE `" ++ c.name ++ "` " ++ "`" ++ c.name ++ "` " ++
          c.sType ++
          (if c.sType = "char" ∨ c.sType = "varchar" then "(" ++ fmtD c.iSize ++ ")" else "") ++
          nullClause c ++ defaultClause fmtV c ++ " COMMENT '" ++ c.comment ++ "'" ++ ";\n")) ++
      "\n" := by
  have hstmt : ∀ c : column, alterStmt fmtV t c =
      "ALTER TABLE `" ++ t.name ++ "` CHANGE `" ++ c.name ++ "` " ++ "`" ++ c.name ++ "` " ++
        c.sType ++
        (if c.sType = "char" ∨ c.sType = "varchar" then "(" ++ fmtD c.iSize ++ ")" else "") ++
        nullClause c ++ defaultClause fmtV c ++ " COMMENT '" ++ c.comment ++ "'" ++ ";\n" := by
    intro c
    simp only [alterStmt, columnDef, columnType, commentClause]
    split_ifs <;> apply String.ext <;> simp [String.data_append]
  rw [generateAlterSQL_eq, scriptHead, funext hstmt]

/-- C14: the model file is `package models`, the struct named by the model name, and one
field line for each column, in column order: the field name, the scalar type of the
storage type as the specification lists it, the column name, then `;null` for a
nullable column, then `;pk` for the first column with `isPk` set, then the size when it
is positive, in that order. -/
theorem outputModelCode_fields (t : table) :
    ∃ fields : List String,
      fields.length = t.columns.length ∧
      t.outputModelCode =
        "package models\n\n" ++ "type " ++ t.modelName ++ " struct\x7b\n" ++
          sconcat fields ++ "\x7d\n" ∧
      ∀ (i : Nat) (c : column), t.columns[i]? = some c →
        fields[i]? =
          some ("\t" ++ c.modelName ++ " " ++ scalarTypeOf c.sType ++
            " `orm:\"column(" ++ c.name ++ ")" ++
            (if c.isNull = true then ";null" else "") ++
            (if c.isPk = true ∧ (t.columns.take i).all (fun d => !d.isPk) = true then ";pk"
             else "") ++
            (if c.iSize > 0 then ";size(" ++ fmtD c.iSize ++ ")" else "") ++ "\"`\n") := by
  refine ⟨List.zipWith modelField t.columns (pkMarksFrom false t.columns), ?_, ?_, ?_⟩
  · simp [pkMarksFrom_length]
  · rw [outputModelCode_eq, modelHead]
  · intro i c h
    rw [List.getElem?_zipWith, h, pkMarksFrom_getElem?_eq _ false i c h]
    simp only [modelField, typeMapGet_eq_scalarTypeOf]
    cases hp : c.isPk <;> cases ha : (t.columns.take i).all (fun d => !d.isPk) <;> simp

set_option maxRecDepth 100000 in
/-- C15: the example table `users`, loaded from its document: the Create statement has
the clause of `id`, then the clause of `name`, then PRIMARY KEY(`id`), and the model has
one field with `;pk`, the field `Id`. -/
theorem users_example (fmtV : JVal → String) :
    ∃ t : table,
      loadTable shellSortSlice "users" (JVal.obj usersDoc) = .ok t ∧
      t.columns.map (fun c => (c.name, c.sType, c.iSize, c.isPk, c.isNull, c.sn, c.modelName))
        = [("id", "bigint", 0, true, false, 1, "Id"),
           ("name", "varchar", 32, false, false, 2, "Name")] ∧
      t.generateCreateSQL fmtV =
        "-- --------------------------------------------------\n" ++
        "--  Table Structure for `models.User`\n" ++
        "-- --------------------------------------------------\n" ++
        "CREATE TABLE IF NOT EXISTS `users` (\n" ++
        "`id` bigint NOT NULL COMMENT 'id',\n" ++
        "`name` varchar(32) NOT NULL COMMENT 'name',\n" ++
        "PRIMARY KEY(`id`)\n" ++
        ") ENGINE=InnoDB COMMENT='user table' DEFAULT CHARSET=utf8;\n" ++
        "\n" ∧
      t.outputModelCode =
        "package models\n\n" ++
        "type User struct\x7b\n" ++
        "\tId int64 `orm:\"column(id);pk\"`\n" ++
        "\tName string `orm:\"column(name);size(32)\"`\n" ++
        "\x7d\n" :=
  ⟨_, rfl, rfl, rfl, rfl⟩

theorem sqlLoop_eq (fmtV : JVal → String) (ts : List table) :
    ∀ acc : String × String × String × String,
      sqlLoop fmtV ts acc =
        some (acc.1 ++ sconcat (ts.map (fun t => t.generateCreateSQL fmtV)),
              acc.2.1 ++ sconcat (ts.map (fun t => t.generateAlterSQL fmtV)),
              acc.2.2.1 ++ sconcat (ts.map (fun t => t.generateDropSQL)),
              acc.2.2.2 ++ sconcat (ts.map (fun t => t.generateAddSQL fmtV))) := by
  induction ts with
  | nil => intro acc; simp [sqlLoop, sconcat]
  | cons t ts ih =>
    intro acc
    simp [sqlLoop, ih, table.generateCreateSQLResult, table.generateAlterSQLResult,
      table.generateDropSQLResult, table.generateAddSQLResult, sconcat, String.append_assoc]

/-- C16: each of the four statement builders returns the nil error with its text; so does
`generateSQL`, and the loop of `main` over the tables never returns early: it reaches
`outputSql` with the four concatenated scripts. -/
theorem builders_return_nil_error (fmtV : JVal → String) (t : table) :
    (t.generateCreateSQLResult fmtV = (none, t.generateCreateSQL fmtV) ∧
     t.generateAlterSQLResult fmtV = (none, t.generateAlterSQL fmtV) ∧
     t.generateDropSQLResult = (none, t.generateDropSQL) ∧
     t.generateAddSQLResult fmtV = (none, t.generateAddSQL fmtV)) ∧
    t.generateSQL fmtV =
      (none, t.generateCreateSQL fmtV, t.generateAlterSQL fmtV, t.generateDropSQL) ∧
    ∀ tableSlice : List table,
      sqlLoop fmtV tableSlice ("", "", "", "") =
        some (sconcat (tableSlice.map (fun t => t.generateCreateSQL fmtV)),
              sconcat (tableSlice.map (fun t => t.generateAlterSQL fmtV)),
              sconcat (tableSlice.map (fun t => t.generateDropSQL)),
              sconcat (tableSlice.map (fun t => t.generateAddSQL fmtV))) := by
  refine ⟨⟨rfl, rfl, rfl, rfl⟩, rfl, ?_⟩
  intro tableSlice
  rw [sqlLoop_eq]
  simp

/-- C17: `parseIndex` fails with the parse error when some index group is not a sequence
or has an element that is not a string; on groups that are all sequences of strings it
succeeds, and the table gets, after the indexes it had, one index for each group, in the
order of the groups, with the column names of the group in their order. -/
theorem parseIndex_spec (t : table) (indexSlice : List JVal) :
    ((∃ g ∈ indexSlice, (∀ xs, g ≠ JVal.arr xs) ∨
        ∃ xs, g = JVal.arr xs ∧ ∃ x ∈ xs, ∀ s, x ≠ JVal.str s) →
      t.parseIndex indexSlice = .error Failure.ERR_PARSE_FAILED) ∧
    (∀ groups : List (List String),
      indexSlice = groups.map (fun ss => JVal.arr (ss.map JVal.str)) →
      t.parseIndex indexSlice =
        .ok { t with indexs := t.indexs ++ groups.map (fun ss => { columns := ss }) }) ∧
    ((∀ g ∈ indexSlice, ∃ xs, g = JVal.arr xs ∧ ∀ x ∈ xs, ∃ s, x = JVal.str s) →
      ∃ groups : List (List String),
        indexSlice = groups.map (fun ss => JVal.arr (ss.map JVal.str))) := by
  refine ⟨parseIndex_of_bad_group indexSlice t, ?_, ?_⟩
  · intro groups h
    rw [h]
    exact parseIndex_strings groups t
  · intro h
    induction indexSlice with
    | nil => exact ⟨[], rfl⟩
    | cons g gs ih =>
      obtain ⟨groups, hgroups⟩ := ih (fun g1 hg1 => h g1 (List.mem_cons_of_mem _ hg1))
      obtain ⟨xs, hxs, hall⟩ := h g (List.mem_cons_self _ _)
      have hstr : ∀ ys : List JVal, (∀ x ∈ ys, ∃ s, x = JVal.str s) →
          ∃ ss : List String, ys = ss.map JVal.str := by
        intro ys
        induction ys with
        | nil => intro _; exact ⟨[], rfl⟩
        | cons y ys ihy =>
          intro hy
          obtain ⟨ss, hss⟩ := ihy (fun x hx => hy x (List.mem_cons_of_mem _ hx))
          obtain ⟨s, hs⟩ := hy y (List.mem_cons_self _ _)
          exact ⟨s :: ss, by simp [hs, hss]⟩
      obtain ⟨ss, hss⟩ := hstr xs hall
      exact ⟨ss :: groups, by simp [hxs, hss, hgroups]⟩

/-- C18: two tables that are the same but for the sizes of columns whose storage type is
neither `char` nor `varchar` get the same text from each of the four statement builders. -/
theorem builders_ignore_size (fmtV : JVal → String) (t1 t2 : table)
    (hname : t1.name = t2.name) (hcomment : t1.comment = t2.comment)
    (hmodel : t1.modelName = t2.modelName) (hindexs : t1.indexs = t2.indexs)
    (hcols : List.Forall₂ SameButSize t1.columns t2.columns) :
    t1.generateCreateSQL fmtV = t2.generateCreateSQL fmtV ∧
    t1.generateAlterSQL fmtV = t2.generateAlterSQL fmtV ∧
    t1.generateDropSQL = t2.generateDropSQL ∧
    t1.generateAddSQL fmtV = t2.generateAddSQL fmtV := by
  have hlen : t1.columns.length = t2.columns.length := hcols.length_eq
  refine ⟨?_, ?_, ?_, ?_⟩
  · have hbody : generateCreateSQLIndexBody t1 = generateCreateSQLIndexBody t2 := by
      funext sql idx
      simp only [generateCreateSQLIndexBody, hname]
    simp only [table.generateCreateSQL, hname, hcomment, hmodel, hindexs, hlen, hbody,
      generateCreateSQLLoop_sameButSize fmtV _ _ _ hcols]
  · have hf : ∀ s c1 c2, SameButSize c1 c2 →
        generateAlterSQLBody fmtV t1 s c1 = generateAlterSQLBody fmtV t2 s c2 := by
      intro s c1 c2 hc
      rw [generateAlterSQLBody_eq, generateAlterSQLBody_eq, columnDef_sameButSize fmtV _ _ hc,
        hname, hc.1]
    have hb : generateAlterSQLBody fmtV t1 = generateAlterSQLBody fmtV t2 := by
      funext s c
      exact hf s c c ⟨rfl, rfl, rfl, rfl, rfl, rfl, rfl, rfl, fun _ => rfl⟩
    simp only [table.generateAlterSQL, hname]
    rw [foldl_sameButSize _ _ _ hcols (fun s c1 c2 hc => by rw [hf s c1 c2 hc, hb]), hb]
  · have hf : ∀ s c1 c2, SameButSize c1 c2 →
        generateDropSQLBody t1 s c1 = generateDropSQLBody t2 s c2 := by
      intro s c1 c2 hc
      simp only [generateDropSQLBody, hname, hc.1]
    have hb : generateDropSQLBody t1 = generateDropSQLBody t2 := by
      funext s c
      exact hf s c c ⟨rfl, rfl, rfl, rfl, rfl, rfl, rfl, rfl, fun _ => rfl⟩
    simp only [table.generateDropSQL, hname]
    rw [foldl_sameButSize _ _ _ hcols (fun s c1 c2 hc => by rw [hf s c1 c2 hc, hb]), hb]
  · have hf : ∀ s c1 c2, SameButSize c1 c2 →
        generateAddSQLBody fmtV t1 s c1 = generateAddSQLBody fmtV t2 s c2 := by
      intro s c1 c2 hc
      obtain ⟨sql, pre⟩ := s
      rw [generateAddSQLBody_eq, generateAddSQLBody_eq, columnDef_sameButSize fmtV _ _ hc,
        hname, hc.1]
    have hb : generateAddSQLBody fmtV t1 = generateAddSQLBody fmtV t2 := by
      funext s c
      exact hf s c c ⟨rfl, rfl, rfl, rfl, rfl, rfl, rfl, rfl, fun _ => rfl⟩
    simp only [table.generateAddSQL, hname]
    rw [foldl_sameButSize _ _ _ hcols (fun s c1 c2 hc => by rw [hf s c1 c2 hc, hb]), hb]

/-- Witness of C18: an `int` column with the size 0 in one table and 11 in the other,
next to a `varchar` column of size 32. -/
theorem builders_ignore_size_witness :
    List.Forall₂ SameButSize sizeTable1.columns sizeTable2.columns ∧
    (sizeTable1.generateCreateSQL (fun _ => "") = sizeTable2.generateCreateSQL (fun _ => "") ∧
     sizeTable1.generateAlterSQL (fun _ => "") = sizeTable2.generateAlterSQL (fun _ => "") ∧
     sizeTable1.generateDropSQL = sizeTable2.generateDropSQL ∧
     sizeTable1.generateAddSQL (fun _ => "") = sizeTable2.generateAddSQL (fun _ => "")) :=
  have h : List.Forall₂ SameButSize sizeTable1.columns sizeTable2.columns :=
    List.Forall₂.cons ⟨rfl, rfl, rfl, rfl, rfl, rfl, rfl, rfl, by decide⟩
      (List.Forall₂.cons ⟨rfl, rfl, rfl, rfl, rfl, rfl, rfl, rfl, fun _ => rfl⟩
        List.Forall₂.nil)
  ⟨h, builders_ignore_size (fun _ => "") sizeTable1 sizeTable2 rfl rfl rfl rfl h⟩

/-- C19: the Create, Alter and Add statements are built around the same column
definition: for each column `c` there is one text, the name, the type with its size for
a character type, the nullability, the default and the comment, that the Create statement
has as the clause of `c` before its line end, the Alter script after
``ALTER TABLE `<table>` CHANGE `<name>` `` and the Add script after
``ALTER TABLE `<table>` ADD ``. -/
theorem builders_share_column_definition (fmtV : JVal → String) (t : table) :
    ∃ cr al ad : List String,
      t.generateCreateSQL fmtV =
        createHead t ++ sconcat cr ++ primaryKeyClause t.columns ++ createTail t ∧
      t.generateAlterSQL fmtV = scriptHead t ++ sconcat al ++ "\n" ∧
      t.generateAddSQL fmtV = scriptHead t ++ sconcat ad ++ "\n" ∧
      cr.length = t.columns.length ∧ al.length = t.columns.length ∧
      ad.length = t.columns.length ∧
      ∀ (i : Nat) (c : column), t.columns[i]? = some c →
        ∃ definition e1 e2 : String,
          definition =
            "`" ++ c.name ++ "` " ++ c.sType ++
              (if c.sType = "char" ∨ c.sType = "varchar" then "(" ++ fmtD c.iSize ++ ")"
               else "") ++
              nullClause c ++ defaultClause fmtV c ++ " COMMENT '" ++ c.comment ++ "'" ∧
          (e1 = "\n" ∨ e1 = ",\n") ∧
          (e2 = ";\n" ∨ ∃ p, e2 = " AFTER `" ++ p ++ "`;\n") ∧
          cr[i]? = some (definition ++ e1) ∧
          al[i]? = some ("ALTER TABLE `" ++ t.name ++ "` CHANGE `" ++ c.name ++ "` " ++
            definition ++ ";\n") ∧
          ad[i]? = some ("ALTER TABLE `" ++ t.name ++ "` ADD " ++ definition ++ e2) := by
  have hdef : ∀ c : column, columnDef fmtV c =
      "`" ++ c.name ++ "` " ++ c.sType ++
        (if c.sType = "char" ∨ c.sType = "varchar" then "(" ++ fmtD c.iSize ++ ")" else "") ++
        nullClause c ++ defaultClause fmtV c ++ " COMMENT '" ++ c.comment ++ "'" := by
    intro c
    simp only [columnDef, columnType, commentClause]
    split_ifs <;> apply String.ext <;> simp [String.data_append]
  refine ⟨createClauses fmtV t.columns, t.columns.map (alterStmt fmtV t), addStmts fmtV t,
    generateCreateSQL_eq fmtV t, generateAlterSQL_eq fmtV t, generateAddSQL_eq fmtV t,
    createClauses_length _ _, by simp, addStmts_length _ _, ?_⟩
  intro i c h
  have hcr := createClauses_getElem? fmtV t.columns i c h
  have hal : (t.columns.map (alterStmt fmtV t))[i]? = some (alterStmt fmtV t c) := by
    simp [List.getElem?_map, h]
  cases i with
  | zero =>
    refine ⟨columnDef fmtV c, _, ";\n", hdef c, ?_, Or.inl rfl, hcr, ?_, ?_⟩
    · split_ifs <;> simp
    · rw [hal, alterStmt]
    · rw [addStmts_getElem?_zero fmtV t c h, addStmt]
      simp
  | succ i =>
    have hlt : i < t.columns.length := by
      have := (List.getElem?_eq_some_iff.1 h).1
      omega
    have hp : t.columns[i]? = some (t.columns[i]) := List.getElem?_eq_getElem hlt
    refine ⟨columnDef fmtV c, _,
      (if (t.columns[i]).name = "" then ";\n" else " AFTER `" ++ (t.columns[i]).name ++ "`;\n"),
      hdef c, ?_, ?_, hcr, ?_, ?_⟩
    · split_ifs <;> simp
    · split_ifs
      · exact Or.inl rfl
      · exact Or.inr ⟨_, rfl⟩
    · rw [hal, alterStmt]
    · rw [addStmts_getElem?_succ fmtV t i _ c hp h, addStmt]

/-- C20: `column.parse` gives the same result, the same failure or the same column, for
any two visiting orders of an attribute mapping with distinct keys, and the entries whose
key is none of the eight attribute names do not change the result. -/
theorem parse_order_independent (c0 : column) (m1 m2 : List (String × JVal))
    (hperm : m1.Perm m2) (hnd : (m1.map Prod.fst).Nodup) :
    c0.parse m1 = c0.parse m2 ∧
    c0.parse (m1.filter (fun p => isRecognisedKey p.1)) = c0.parse m1 ∧
    ∀ extra : List (String × JVal), (∀ p ∈ extra, isRecognisedKey p.1 = false) →
      c0.parse (extra ++ m1) = c0.parse m1 ∧ c0.parse (m1 ++ extra) = c0.parse m1 := by
  refine ⟨parse_perm c0 m1 m2 hperm hnd, parse_filter_recognised m1 c0, ?_⟩
  intro extra hextra
  have hf : extra.filter (fun p => isRecognisedKey p.1) = [] := by
    rw [List.filter_eq_nil_iff]
    intro p hp
    simp [hextra p hp]
  constructor
  · rw [← parse_filter_recognised (extra ++ m1), List.filter_append, hf, List.nil_append,
      parse_filter_recognised]
  · rw [← parse_filter_recognised (m1 ++ extra), List.filter_append, hf, List.append_nil,
      parse_filter_recognised]

/-- Witness of C20: the mapping `nameColumnMap` and the same entries in another order. -/
theorem parse_order_independent_witness :
    nameColumnMap.Perm nameColumnMapShuffled ∧ (nameColumnMap.map Prod.fst).Nodup ∧
    (NewColumn.parse nameColumnMap = NewColumn.parse nameColumnMapShuffled ∧
     NewColumn.parse (nameColumnMap.filter (fun p => isRecognisedKey p.1)) =
       NewColumn.parse nameColumnMap ∧
     ∀ extra : List (String × JVal), (∀ p ∈ extra, isRecognisedKey p.1 = false) →
       NewColumn.parse (extra ++ nameColumnMap) = NewColumn.parse nameColumnMap ∧
       NewColumn.parse (nameColumnMap ++ extra) = NewColumn.parse nameColumnMap) :=
  have hperm : nameColumnMap.Perm nameColumnMapShuffled :=
    (List.reverse_perm nameColumnMap).symm
  ⟨hperm, by decide, parse_order_independent NewColumn nameColumnMap nameColumnMapShuffled
    hperm (by decide)⟩

end Dbgen
